import Mathlib

/-!
Shallow embedding of the grid/detection-mapping core of the yolo-grid-demo
repository, together with proofs about its behaviour.

Sources embedded:
* `src/js/grid-manager.js` — the `GridManager` class: grid creation, cell
  geometry, detection-to-grid mapping, cell activation.
* the unnamed YOLO-simulation module — `applyNMS` and `calculateIoU`.

JavaScript numbers are modelled as rationals (`ℚ`); the few places where
NaN semantics matter for a claim use an explicit `JVal` type.  Cell and
manager records mirror the mutable JS objects; every mutating method
becomes a function returning the updated record.  The JS `lastUpdate`
timestamp field is write-only in the source and is omitted.
-/

namespace YoloGrid

/-- The five cell states of `grid-manager.js`
(`inactive, active, detecting, detected, confident`). -/
inductive CellState
  | inactive
  | active
  | detecting
  | detected
  | confident
deriving DecidableEq

/-- An axis-aligned bounding box `[x, y, width, height]` in canvas pixels,
as produced by `formatDetection` and consumed by `mapDetectionToGrid` and
`calculateIoU`. -/
structure BBox where
  x : ℚ
  y : ℚ
  w : ℚ
  h : ℚ
deriving DecidableEq

/-- A post-processed detection: its `score` and its pixel bounding box.
The `class`, `center` and `id` fields of the JS object are never read by
the grid mapping or by `applyNMS`, so they are not modelled. -/
structure Detection where
  score : ℚ
  bbox : BBox
deriving DecidableEq

instance : Inhabited Detection := ⟨⟨0, ⟨0, 0, 0, 0⟩⟩⟩

/-- One grid cell, mirroring the object literal built in `createGrid`. -/
@[ext] structure Cell where
  id : Nat
  row : Nat
  col : Nat
  x : ℚ
  y : ℚ
  width : ℚ
  height : ℚ
  state : CellState
  confidence : ℚ
  detection : Option Detection
deriving DecidableEq

instance : Inhabited Cell :=
  ⟨⟨0, 0, 0, 0, 0, 0, 0, CellState.inactive, 0, none⟩⟩

/-- The state of a `GridManager` instance relevant to grid mapping:
grid resolution, canvas size, the cell array, and the stored detection
list. -/
@[ext] structure GridManager where
  gridSize : Nat
  canvasWidth : ℚ
  canvasHeight : ℚ
  cells : List Cell
  detections : List Detection
deriving DecidableEq

/-- `calculateCellPositions`: recompute every cell's pixel rectangle from
the current canvas size and grid size. -/
def calculateCellPositions (g : GridManager) : GridManager :=
  let cellWidth := g.canvasWidth / (g.gridSize : ℚ)
  let cellHeight := g.canvasHeight / (g.gridSize : ℚ)
  { g with cells := g.cells.map fun c =>
      { c with
        x := (c.col : ℚ) * cellWidth
        y := (c.row : ℚ) * cellHeight
        width := cellWidth
        height := cellHeight } }

/-- `createGrid`: rebuild the `gridSize²` cell array from scratch (all
cells `inactive`, confidence `0`, no owning detection) and compute their
positions. -/
def createGrid (g : GridManager) : GridManager :=
  let cellCount := g.gridSize * g.gridSize
  let cells := (List.range cellCount).map fun i =>
    { id := i
      row := i / g.gridSize
      col := i % g.gridSize
      x := 0, y := 0, width := 0, height := 0
      state := CellState.inactive
      confidence := 0
      detection := none : Cell }
  calculateCellPositions { g with cells := cells }

/-- `setGridSize(newSize)`: store the new size and rebuild the grid. -/
def setGridSize (newSize : Nat) (g : GridManager) : GridManager :=
  createGrid { g with gridSize := newSize }

/-- `resize()`: store the new canvas size (read from the DOM in JS, passed
as arguments here) and recompute cell rectangles. -/
def resize (w h : ℚ) (g : GridManager) : GridManager :=
  calculateCellPositions { g with canvasWidth := w, canvasHeight := h }

/-- Apply `f` to the element at position `n` of a list, mirroring a JS
write through `this.cells[cellId]`; out-of-range indices leave the list
unchanged (the JS methods guard with `if (!cell) return`). -/
def modifyIdx (f : Cell → Cell) : Nat → List Cell → List Cell
  | _, [] => []
  | 0, c :: cs => f c :: cs
  | n + 1, c :: cs => c :: modifyIdx f n cs

/-- `activateCell(cellId)`: set the cell's state to `active`.  (The JS
method also records a timestamp and a bookkeeping set entry, neither of
which is read by the mapping logic.) -/
def activateCell (cellId : Nat) (g : GridManager) : GridManager :=
  { g with cells := modifyIdx (fun c => { c with state := CellState.active }) cellId g.cells }

/-- `deactivateCell(cellId)`: reset the cell to `inactive` with zero
confidence and no owning detection. -/
def deactivateCell (cellId : Nat) (g : GridManager) : GridManager :=
  let f := fun c =>
    { c with state := CellState.inactive, confidence := 0, detection := none }
  { g with cells := modifyIdx f cellId g.cells }

/-- `clearDetections()`: drop the stored detection list and deactivate
every cell. -/
def clearDetections (g : GridManager) : GridManager :=
  (g.cells.map Cell.id).foldl (fun acc cid => deactivateCell cid acc)
    { g with detections := [] }

/-- `calculateIntersection(cell, bbox)`: intersection area of a cell's
rectangle with a bounding box; `0` when they do not overlap. -/
def calculateIntersection (cell : Cell) (b : BBox) : ℚ :=
  let left := max cell.x b.x
  let top := max cell.y b.y
  let right := min (cell.x + cell.width) (b.x + b.w)
  let bottom := min (cell.y + cell.height) (b.y + b.h)
  if left < right ∧ top < bottom then (right - left) * (bottom - top) else 0

/-- The integers from `lo` to `hi` inclusive (empty when `hi < lo`),
modelling a JS `for (v = lo; v <= hi; v++)` loop. -/
def intRange (lo hi : ℤ) : List ℤ :=
  (List.range (hi + 1 - lo).toNat).map fun k => lo + k

/-- `getCellsInBoundingBox(x, y, width, height)`: the ids of the cells in
the row/column range spanned by the box, clamped to `[0, gridSize-1]`.
`N`, `W`, `H` are the manager's `gridSize`, `canvasWidth`,
`canvasHeight`. -/
def getCellsInBoundingBox (N : Nat) (W H : ℚ) (x y width height : ℚ) : List Nat :=
  let startCol : ℤ := ⌊x / W * (N : ℚ)⌋
  let endCol : ℤ := ⌊(x + width) / W * (N : ℚ)⌋
  let startRow : ℤ := ⌊y / H * (N : ℚ)⌋
  let endRow : ℤ := ⌊(y + height) / H * (N : ℚ)⌋
  (intRange (max 0 startRow) (min ((N : ℤ) - 1) endRow)).foldr
    (fun row acc =>
      ((intRange (max 0 startCol) (min ((N : ℤ) - 1) endCol)).map fun col =>
        (row * (N : ℤ) + col).toNat) ++ acc)
    []

/-- The body of the `affectedCells.forEach` loop of `mapDetectionToGrid`:
weight the detection score by the cell/box intersection ratio and, when
that beats the cell's current confidence, adopt the detection. -/
def applyDetectionToCell (d : Detection) (cell : Cell) : Cell :=
  let inter := calculateIntersection cell d.bbox
  let ratio := inter / (cell.width * cell.height)
  let adjusted := d.score * ratio
  if adjusted > cell.confidence then
    { cell with
      confidence := adjusted
      detection := some d
      state :=
        if adjusted > 7/10 then CellState.confident
        else if adjusted > 2/5 then CellState.detected
        else if adjusted > 1/10 then CellState.detecting
        else cell.state }
  else cell

/-- `mapDetectionToGrid(detection)`: update every cell in the box's
row/column range. -/
def mapDetectionToGrid (d : Detection) (g : GridManager) : GridManager :=
  let affected := getCellsInBoundingBox g.gridSize g.canvasWidth g.canvasHeight
    d.bbox.x d.bbox.y d.bbox.w d.bbox.h
  let step := fun cs cid => modifyIdx (applyDetectionToCell d) cid cs
  { g with cells := affected.foldl step g.cells }

/-- The reset step at the top of `updateDetections`: every cell that is
not `inactive` goes back to `active` with zero confidence and no owner. -/
def resetCell (c : Cell) : Cell :=
  if c.state ≠ CellState.inactive then
    { c with state := CellState.active, confidence := 0, detection := none }
  else c

/-- `updateDetections(detections)`: store the list, reset all non-inactive
cells, then map every detection onto the grid in list order. -/
def updateDetections (ds : List Detection) (g : GridManager) : GridManager :=
  let g1 := { g with detections := ds, cells := g.cells.map resetCell }
  ds.foldl (fun acc d => mapDetectionToGrid d acc) g1

/-- `calculateIoU(bbox1, bbox2)` from the YOLO-simulation module:
intersection area over union area, `0` when the union is not positive. -/
def calculateIoU (b1 b2 : BBox) : ℚ :=
  let intersectX1 := max b1.x b2.x
  let intersectY1 := max b1.y b2.y
  let intersectX2 := min (b1.x + b1.w) (b2.x + b2.w)
  let intersectY2 := min (b1.y + b1.h) (b2.y + b2.h)
  let intersectArea := max 0 (intersectX2 - intersectX1) * max 0 (intersectY2 - intersectY1)
  let area1 := b1.w * b1.h
  let area2 := b2.w * b2.h
  let unionArea := area1 + area2 - intersectArea
  if unionArea > 0 then intersectArea / unionArea else 0

/-- `applyNMS(detections)`: greedy non-maximum suppression over the
(score-descending) detection list, with an explicit suppressed-index set,
mirroring the two nested JS loops. -/
def applyNMS (iouThreshold : ℚ) (detections : List Detection) : List Detection :=
  if detections.length = 0 then [] else
  let n := detections.length
  let get := fun i => detections.getD i default
  let final := (List.range n).foldl
    (fun (acc : List Detection × List Nat) i =>
      if i ∈ acc.2 then acc
      else
        ((acc.1 ++ [get i]),
          (List.range' (i + 1) (n - (i + 1))).foldl
            (fun sup j =>
              if j ∈ sup then sup
              else if calculateIoU (get i).bbox (get j).bbox > iouThreshold then sup ++ [j]
              else sup)
            acc.2))
    ([], [])
  final.1

/-! ### Derived quantities named by the specification -/

/-- The `adjustedConfidence` computed inside `mapDetectionToGrid`:
`detection.score * (intersection area / cell area)`. -/
def adjustedConf (d : Detection) (c : Cell) : ℚ :=
  d.score * (calculateIntersection c d.bbox / (c.width * c.height))

/-- The state assigned on adoption: `>0.7 → confident`, `>0.4 → detected`,
`>0.1 → detecting`, otherwise the previous state. -/
def stateFor (a : ℚ) (s : CellState) : CellState :=
  if a > 7/10 then CellState.confident
  else if a > 2/5 then CellState.detected
  else if a > 1/10 then CellState.detecting
  else s

/-- What one detection does to the cell with id `i` during
`mapDetectionToGrid`: the cell is touched exactly when its id lies in the
box's clamped row/column range. -/
def cellStep (N : Nat) (W H : ℚ) (d : Detection) (i : Nat) (c : Cell) : Cell :=
  if i ∈ getCellsInBoundingBox N W H d.bbox.x d.bbox.y d.bbox.w d.bbox.h then
    applyDetectionToCell d c
  else c

/-- What a whole detection list does to the cell with id `i` during the
mapping phase of `updateDetections`. -/
def cellPass (N : Nat) (W H : ℚ) (ds : List Detection) (i : Nat) (c : Cell) : Cell :=
  ds.foldl (fun c d => cellStep N W H d i c) c

/-- The adjusted confidence a detection contributes to cell `i`, taken as
`0` when the box's row/column range does not include the cell (the
spec's reading in its ownership-monotonicity property). -/
def adjFor (N : Nat) (W H : ℚ) (i : Nat) (c : Cell) (d : Detection) : ℚ :=
  if i ∈ getCellsInBoundingBox N W H d.bbox.x d.bbox.y d.bbox.w d.bbox.h then
    adjustedConf d c
  else 0

/-- The maximum `adjustedConfidence` seen by cell `i` across a detection
list (0 when no detection covers the cell). -/
def maxAdjFor (N : Nat) (W H : ℚ) (ds : List Detection) (i : Nat) (c : Cell) : ℚ :=
  ds.foldl (fun m d => max m (adjFor N W H i c d)) 0

/-- Modelled from the spec: the reference "kept" predicate of greedy
suppression — a detection is kept unless it has IoU strictly greater than
the threshold with an earlier kept detection.  Used to state the
(amended) characterization of `applyNMS`. -/
def nmsKept (thr : ℚ) (ds : List Detection) : Nat → Bool
  | j => (List.range j).attach.all fun p =>
      !(nmsKept thr ds p.1 &&
        decide (calculateIoU (ds.getD p.1 default).bbox (ds.getD j default).bbox > thr))
termination_by j => j
decreasing_by exact List.mem_range.mp p.2

/-- The body of the outer suppression loop of `applyNMS`, named so the
loop invariant can be stated about it; `applyNMS` is definitionally this
step folded over `List.range detections.length`. -/
def nmsOuterStep (thr : ℚ) (ds : List Detection)
    (acc : List Detection × List Nat) (i : Nat) : List Detection × List Nat :=
  if i ∈ acc.2 then acc
  else
    ((acc.1 ++ [ds.getD i default]),
      (List.range' (i + 1) (ds.length - (i + 1))).foldl
        (fun sup j =>
          if j ∈ sup then sup
          else if calculateIoU (ds.getD i default).bbox (ds.getD j default).bbox > thr then
            sup ++ [j]
          else sup)
        acc.2)

/-! ### Concrete scenario inputs used by several claims -/

/-- A fresh 3×3 manager on a 300×300 canvas (100-pixel cells). -/
def demoGrid0 : GridManager :=
  createGrid { gridSize := 3, canvasWidth := 300, canvasHeight := 300, cells := [], detections := [] }

/-- The same manager with every cell activated. -/
def demoGridActive : GridManager :=
  (List.range 9).foldl (fun g i => activateCell i g) demoGrid0

/-- The spec's scenario detection: box `(50, 50, 80, 80)`, score `0.9`. -/
def demoDet : Detection := ⟨9/10, ⟨50, 50, 80, 80⟩⟩

/-- A small detection whose adjusted confidence on cell `(0,0)` is
`0.009 ∈ (0, 0.1]`. -/
def demoSmallDet : Detection := ⟨9/10, ⟨0, 0, 10, 10⟩⟩

/-- Two boxes with IoU exactly `1/2`: unit square and a 1×2 box sharing
its top edge. -/
def demoNmsA : Detection := ⟨9/10, ⟨0, 0, 1, 1⟩⟩

/-- See `demoNmsA`. -/
def demoNmsB : Detection := ⟨8/10, ⟨0, 0, 1, 2⟩⟩

/-- The cell that `setGridSize N` puts at index `i` on a `W × H` canvas:
fresh state, rectangle `(col·cellWidth, row·cellHeight, cellWidth,
cellHeight)` with `cellWidth = W/N`, `cellHeight = H/N`. -/
def tileCell (N : Nat) (W H : ℚ) (i : Nat) : Cell where
  id := i
  row := i / N
  col := i % N
  x := ((i % N : Nat) : ℚ) * (W / (N : ℚ))
  y := ((i / N : Nat) : ℚ) * (H / (N : ℚ))
  width := W / (N : ℚ)
  height := H / (N : ℚ)
  state := CellState.inactive
  confidence := 0
  detection := none

/-! ### Predicates used by the invariant claims -/

/-- Two cells that agree on everything except `state`, `confidence` and
`detection` — the only fields the mapping phase can change. -/
def sameShape (u v : Cell) : Prop :=
  u.id = v.id ∧ u.row = v.row ∧ u.col = v.col ∧
  u.x = v.x ∧ u.y = v.y ∧ u.width = v.width ∧ u.height = v.height

/-- A cell with nonnegative extent and confidence in `[0, 1]`. -/
def cellOK (c : Cell) : Prop :=
  0 ≤ c.width ∧ 0 ≤ c.height ∧ 0 ≤ c.confidence ∧ c.confidence ≤ 1

/-- A manager whose canvas has nonnegative extent and all of whose cells
satisfy `cellOK`. -/
def gridOK (g : GridManager) : Prop :=
  0 ≤ g.canvasWidth ∧ 0 ≤ g.canvasHeight ∧ ∀ c ∈ g.cells, cellOK c

/-- A detection list whose scores lie in `[0,1]` and whose boxes have
nonnegative width and height. -/
def detsOK (ds : List Detection) : Prop :=
  ∀ d ∈ ds, 0 ≤ d.score ∧ d.score ≤ 1 ∧ 0 ≤ d.bbox.w ∧ 0 ≤ d.bbox.h

/-! ### A JS-number model with NaN, for the malformed-detection claim

`mapDetectionToGrid` destructures `detection.bbox`; when the box is
missing (`undefined`) the destructuring throws a `TypeError`, and when a
coordinate is `NaN` the floors in `getCellsInBoundingBox` are `NaN`, both
loop guards (`row <= ...`, `col <= ...`) compare against `NaN` and are
false, so no cell is visited. -/

/-- A JavaScript number: either `NaN` or a rational value. -/
inductive JVal
  | nan
  | num (q : ℚ)
deriving DecidableEq

/-- A bounding box whose coordinates may be `NaN`. -/
structure RawBBox where
  x : JVal
  y : JVal
  w : JVal
  h : JVal
deriving DecidableEq

/-- A detection as it reaches the mapping code: the box may be missing
(`undefined` in JS) and its coordinates may be `NaN`. -/
structure RawDetection where
  score : ℚ
  bbox : Option RawBBox
deriving DecidableEq

/-- The box's numeric value when no coordinate is `NaN`. -/
def rawBoxNum? (b : RawBBox) : Option BBox :=
  match b.x, b.y, b.w, b.h with
  | JVal.num x, JVal.num y, JVal.num w, JVal.num h => some ⟨x, y, w, h⟩
  | _, _, _, _ => none

/-- Some coordinate of the box is `NaN`. -/
def RawBBox.hasNaN (b : RawBBox) : Prop :=
  b.x = JVal.nan ∨ b.y = JVal.nan ∨ b.w = JVal.nan ∨ b.h = JVal.nan

/-- `mapDetectionToGrid` on a present box with possibly-`NaN`
coordinates: a `NaN` coordinate makes both `getCellsInBoundingBox` loop
bounds `NaN`, their guards false, hence no affected cells and no change
to the grid. -/
def mapDetectionToGridJ (score : ℚ) (b : RawBBox) (g : GridManager) : GridManager :=
  match rawBoxNum? b with
  | some bb => mapDetectionToGrid ⟨score, bb⟩ g
  | none => g

/-- The `detections.forEach(... mapDetectionToGrid ...)` loop of
`updateDetections` over possibly-malformed detections.  A missing box
throws in the destructuring `const [x, y, width, height] = bbox`; the
exception aborts the loop, leaving the grid in its partial state
(`Except.error`). -/
def mapRawDetections : List RawDetection → GridManager → Except GridManager GridManager
  | [], g => Except.ok g
  | d :: tl, g =>
    match d.bbox with
    | none => Except.error g
    | some b => mapRawDetections tl (mapDetectionToGridJ d.score b g)

/-- `updateDetections` over possibly-malformed detections: reset phase
followed by the mapping loop. -/
def updateDetectionsJ (ds : List RawDetection) (g : GridManager) :
    Except GridManager GridManager :=
  mapRawDetections ds { g with cells := g.cells.map resetCell }

/-- A well-formed raw detection corresponding to `demoDet`. -/
def demoRawDet : RawDetection :=
  ⟨9/10, some ⟨JVal.num 50, JVal.num 50, JVal.num 80, JVal.num 80⟩⟩

/-- A detection whose box is missing entirely. -/
def demoMissingBoxDet : RawDetection := ⟨9/10, none⟩

/-! ## Lemmas and claim theorems -/

/-- The box `(50,50,80,80)` spans rows 0–1 and columns 0–1 of the 3×3
grid on a 300×300 canvas. -/
theorem demo_affected : getCellsInBoundingBox 3 300 300 50 50 80 80 = [0, 1, 3, 4] := by
  norm_num [getCellsInBoundingBox, intRange]
  decide

/-- The box `(0,0,10,10)` touches only cell 0 of the same grid. -/
theorem demo_small_affected : getCellsInBoundingBox 3 300 300 0 0 10 10 = [0] := by
  norm_num [getCellsInBoundingBox, intRange]
  decide

/-- C1: the spec's scenario numbers are wrong.  On the 3×3 grid over a
300×300 canvas with the single detection `(50,50,80,80)` at score `0.9`,
cell `(0,0)` ends with confidence `9/40 = 0.225`, not `0.576`, and with
state `detecting`, not `detected` (the box covers only the `50×50`
corner of the cell, so the intersection is `2500`, not `6400`). -/
theorem C1_scenario_counterexample :
    ((updateDetections [demoDet] demoGridActive).cells.get? 0).map Cell.confidence
        = some (9/40) ∧
    (9/40 : ℚ) ≠ 576/1000 ∧
    ((updateDetections [demoDet] demoGridActive).cells.get? 0).map Cell.state
        = some CellState.detecting ∧
    CellState.detecting ≠ CellState.detected := by
  have h := demo_affected
  refine ⟨?_, by norm_num, ?_, by decide⟩ <;>
    norm_num [demoGridActive, demoGrid0, demoDet, updateDetections, mapDetectionToGrid, h,
      createGrid, calculateCellPositions, activateCell, modifyIdx, resetCell,
      applyDetectionToCell, calculateIntersection, List.range_succ]

/-- C1 (amended): in the spec's scenario, cell `(0,0)` receives nonzero
confidence — intersection `50×50 = 2500` over cell area `10000`, ratio
`0.25`, adjusted confidence `0.225`, state `detecting` — and owns the
detection, while cells entirely outside the box, such as `(2,2)`, end
with confidence `0` and state `active`. -/
theorem C1_scenario_amended :
    ((updateDetections [demoDet] demoGridActive).cells.get? 0).map Cell.confidence
        = some (9/40) ∧
    (9/40 : ℚ) = (9/10) * (2500/10000) ∧
    ((updateDetections [demoDet] demoGridActive).cells.get? 0).map Cell.state
        = some CellState.detecting ∧
    ((updateDetections [demoDet] demoGridActive).cells.get? 0).map Cell.detection
        = some (some demoDet) ∧
    ((updateDetections [demoDet] demoGridActive).cells.get? 8).map Cell.confidence
        = some 0 ∧
    ((updateDetections [demoDet] demoGridActive).cells.get? 8).map Cell.state
        = some CellState.active := by
  have h := demo_affected
  refine ⟨?_, by norm_num, ?_, ?_, ?_, ?_⟩ <;>
    norm_num [demoGridActive, demoGrid0, demoDet, updateDetections, mapDetectionToGrid, h,
      createGrid, calculateCellPositions, activateCell, modifyIdx, resetCell,
      applyDetectionToCell, calculateIntersection, List.range_succ]

/-- C9: `updateDetections` maps detections onto cells regardless of their
state while the reset step skips `inactive` cells; concretely, on the
fresh (all-inactive) 3×3 grid, the small detection gives cell `(0,0)`
adjusted confidence `0.009 ∈ (0, 0.1]`, so after the call the cell is
still `inactive` yet holds nonzero confidence and an owning
detection. -/
theorem C9_inactive_cell_holds_detection :
    ((updateDetections [demoSmallDet] demoGrid0).cells.get? 0).map Cell.state
        = some CellState.inactive ∧
    ((updateDetections [demoSmallDet] demoGrid0).cells.get? 0).map Cell.confidence
        = some (9/1000) ∧
    (9/1000 : ℚ) ≠ 0 ∧
    ((updateDetections [demoSmallDet] demoGrid0).cells.get? 0).map Cell.detection
        = some (some demoSmallDet) := by
  have h := demo_small_affected
  refine ⟨?_, ?_, by norm_num, ?_⟩ <;>
    norm_num [demoGrid0, demoSmallDet, updateDetections, mapDetectionToGrid, h,
      createGrid, calculateCellPositions, modifyIdx, resetCell,
      applyDetectionToCell, calculateIntersection, List.range_succ]

/-- C3: the claim fails for starting states with an `inactive` cell of
nonzero confidence (reachable, as `C9` shows): after first applying the
small detection to the fresh grid, a second call with the empty detection
list leaves cell `(0,0)` at confidence `0.009`, whereas the maximum
adjusted confidence over the empty list is `0`. -/
theorem C3_counterexample :
    ((updateDetections [] (updateDetections [demoSmallDet] demoGrid0)).cells.get? 0).map
        Cell.confidence = some (9/1000) ∧
    (9/1000 : ℚ) ≠ 0 := by
  have h := demo_small_affected
  refine ⟨?_, by norm_num⟩
  norm_num [demoGrid0, demoSmallDet, updateDetections, mapDetectionToGrid, h,
    createGrid, calculateCellPositions, modifyIdx, resetCell,
    applyDetectionToCell, calculateIntersection, List.range_succ]

/-- C2: at IoU exactly equal to the threshold the code keeps both
detections (`applyNMS` suppresses only on *strictly* greater IoU), so the
claimed `≥`-threshold suppression is wrong: here the two boxes have IoU
exactly `1/2` and both survive `applyNMS` at threshold `1/2`. -/
theorem C2_exact_threshold_counterexample :
    calculateIoU demoNmsA.bbox demoNmsB.bbox = 1/2 ∧
    applyNMS (1/2) [demoNmsA, demoNmsB] = [demoNmsA, demoNmsB] ∧
    applyNMS (1/2) [demoNmsA, demoNmsB] ≠ [demoNmsA] := by
  have h : calculateIoU demoNmsA.bbox demoNmsB.bbox = 1/2 := by
    norm_num [demoNmsA, demoNmsB, calculateIoU]
  have h2 : applyNMS (1/2) [demoNmsA, demoNmsB] = [demoNmsA, demoNmsB] := by
    simp only [applyNMS, List.length_cons, List.length_nil]
    norm_num [List.range_succ, List.range', h, List.getD]
  refine ⟨h, h2, ?_⟩
  rw [h2]
  simp [demoNmsA, demoNmsB]


theorem applyDetectionToCell_eq (d : Detection) (c : Cell) :
    applyDetectionToCell d c =
      if adjustedConf d c > c.confidence then
        { c with
            confidence := adjustedConf d c
            detection := some d
            state := stateFor (adjustedConf d c) c.state }
      else c := rfl

theorem sameShape_refl (c : Cell) : sameShape c c := ⟨rfl, rfl, rfl, rfl, rfl, rfl, rfl⟩

theorem sameShape_symm {u v : Cell} (h : sameShape u v) : sameShape v u := by
  obtain ⟨h1, h2, h3, h4, h5, h6, h7⟩ := h
  exact ⟨h1.symm, h2.symm, h3.symm, h4.symm, h5.symm, h6.symm, h7.symm⟩

theorem sameShape_trans {u v w : Cell} (h : sameShape u v) (h' : sameShape v w) :
    sameShape u w := by
  obtain ⟨h1, h2, h3, h4, h5, h6, h7⟩ := h
  obtain ⟨g1, g2, g3, g4, g5, g6, g7⟩ := h'
  exact ⟨h1.trans g1, h2.trans g2, h3.trans g3, h4.trans g4, h5.trans g5,
    h6.trans g6, h7.trans g7⟩

theorem adjustedConf_congr {u v : Cell} (h : sameShape u v) (d : Detection) :
    adjustedConf d u = adjustedConf d v := by
  obtain ⟨_, _, _, h4, h5, h6, h7⟩ := h
  simp [adjustedConf, calculateIntersection, h4, h5, h6, h7]

theorem applyDetectionToCell_shape (d : Detection) (c : Cell) :
    sameShape (applyDetectionToCell d c) c := by
  rw [applyDetectionToCell_eq]
  split
  · exact ⟨rfl, rfl, rfl, rfl, rfl, rfl, rfl⟩
  · exact sameShape_refl c

theorem applyDetectionToCell_of_le (d : Detection) (c : Cell)
    (h : adjustedConf d c ≤ c.confidence) : applyDetectionToCell d c = c := by
  rw [applyDetectionToCell_eq, if_neg (not_lt.mpr h)]

theorem applyDetectionToCell_confidence (d : Detection) (c : Cell) :
    (applyDetectionToCell d c).confidence = max c.confidence (adjustedConf d c) := by
  rw [applyDetectionToCell_eq]
  split
  · rename_i h
    simp [max_eq_right h.le]
  · rename_i h
    simp [max_eq_left (not_lt.mp h)]

theorem applyDetectionToCell_idem (d : Detection) (c : Cell) :
    applyDetectionToCell d (applyDetectionToCell d c) = applyDetectionToCell d c := by
  by_cases h : adjustedConf d c > c.confidence
  · apply applyDetectionToCell_of_le
    rw [adjustedConf_congr (applyDetectionToCell_shape d c) d, applyDetectionToCell_confidence]
    exact le_max_right _ _
  · rw [applyDetectionToCell_of_le d c (not_lt.mp h), applyDetectionToCell_of_le d c (not_lt.mp h)]

theorem modifyIdx_get? (f : Cell → Cell) (n i : Nat) (cs : List Cell) :
    (modifyIdx f n cs).get? i = if i = n then (cs.get? i).map f else cs.get? i := by
  induction cs generalizing n i with
  | nil => simp [modifyIdx]
  | cons c cs ih =>
    cases n with
    | zero => cases i <;> simp [modifyIdx]
    | succ n =>
      cases i with
      | zero => simp [modifyIdx]
      | succ i => simpa [modifyIdx] using ih n i

theorem foldl_modifyIdx_get? (f : Cell → Cell) (hf : ∀ c, f (f c) = f c)
    (L : List Nat) (cs : List Cell) (i : Nat) :
    (L.foldl (fun cs n => modifyIdx f n cs) cs).get? i =
      if i ∈ L then (cs.get? i).map f else cs.get? i := by
  induction L generalizing cs with
  | nil => simp
  | cons n L ih =>
    rw [List.foldl_cons, ih, modifyIdx_get?]
    by_cases hin : i = n
    · subst hin
      by_cases hmem : i ∈ L <;>
        simp [hmem, Option.map_map, Function.comp_def, hf]
    · by_cases hmem : i ∈ L <;> simp [hin, hmem]


theorem cellStep_shape (N : Nat) (W H : ℚ) (d : Detection) (i : Nat) (c : Cell) :
    sameShape (cellStep N W H d i c) c := by
  unfold cellStep
  split
  · exact applyDetectionToCell_shape d c
  · exact sameShape_refl c

theorem cellStep_confidence (N : Nat) (W H : ℚ) (d : Detection) (i : Nat) (c : Cell) :
    (cellStep N W H d i c).confidence =
      if i ∈ getCellsInBoundingBox N W H d.bbox.x d.bbox.y d.bbox.w d.bbox.h then
        max c.confidence (adjustedConf d c)
      else c.confidence := by
  unfold cellStep
  split
  · exact applyDetectionToCell_confidence d c
  · rfl

theorem cellStep_conf_mono (N : Nat) (W H : ℚ) (d : Detection) (i : Nat) (c : Cell) :
    c.confidence ≤ (cellStep N W H d i c).confidence := by
  rw [cellStep_confidence]
  split
  · exact le_max_left _ _
  · exact le_refl _

theorem cellPass_nil (N : Nat) (W H : ℚ) (i : Nat) (c : Cell) :
    cellPass N W H [] i c = c := rfl

theorem cellPass_cons (N : Nat) (W H : ℚ) (d : Detection) (ds : List Detection)
    (i : Nat) (c : Cell) :
    cellPass N W H (d :: ds) i c = cellPass N W H ds i (cellStep N W H d i c) := rfl

theorem cellPass_shape (N : Nat) (W H : ℚ) (ds : List Detection) (i : Nat) (c : Cell) :
    sameShape (cellPass N W H ds i c) c := by
  induction ds generalizing c with
  | nil => exact sameShape_refl c
  | cons d ds ih =>
    rw [cellPass_cons]
    exact sameShape_trans (ih _) (cellStep_shape N W H d i c)

theorem cellPass_confidence (N : Nat) (W H : ℚ) (ds : List Detection) (i : Nat) (c : Cell) :
    (cellPass N W H ds i c).confidence =
      ds.foldl
        (fun m d =>
          if i ∈ getCellsInBoundingBox N W H d.bbox.x d.bbox.y d.bbox.w d.bbox.h then
            max m (adjustedConf d c)
          else m)
        c.confidence := by
  induction ds generalizing c with
  | nil => rfl
  | cons d ds ih =>
    rw [cellPass_cons, ih, List.foldl_cons, ← cellStep_confidence]
    apply List.foldl_ext
    intro m d' _
    rw [adjustedConf_congr (cellStep_shape N W H d i c) d']

theorem confFold_init_le (N : Nat) (W H : ℚ) (ds : List Detection) (i : Nat) (c : Cell) :
    ∀ m : ℚ, m ≤
      ds.foldl
        (fun m d =>
          if i ∈ getCellsInBoundingBox N W H d.bbox.x d.bbox.y d.bbox.w d.bbox.h then
            max m (adjustedConf d c)
          else m)
        m := by
  induction ds with
  | nil => intro m; exact le_refl m
  | cons d ds ih =>
    intro m
    rw [List.foldl_cons]
    refine le_trans ?_ (ih _)
    split
    · exact le_max_left _ _
    · exact le_refl _

theorem confFold_mem_le (N : Nat) (W H : ℚ) (ds : List Detection) (i : Nat) (c : Cell)
    (d : Detection) (hd : d ∈ ds)
    (hm : i ∈ getCellsInBoundingBox N W H d.bbox.x d.bbox.y d.bbox.w d.bbox.h) :
    ∀ m : ℚ, adjustedConf d c ≤
      ds.foldl
        (fun m d =>
          if i ∈ getCellsInBoundingBox N W H d.bbox.x d.bbox.y d.bbox.w d.bbox.h then
            max m (adjustedConf d c)
          else m)
        m := by
  induction ds with
  | nil => cases hd
  | cons d0 ds ih =>
    intro m
    rcases List.mem_cons.mp hd with h | h
    · subst h
      rw [List.foldl_cons, if_pos hm]
      exact le_trans (le_max_right _ _) (confFold_init_le N W H ds i c _)
    · rw [List.foldl_cons]
      exact ih h _

theorem cellPass_of_le (N : Nat) (W H : ℚ) (ds : List Detection) (i : Nat) (c : Cell)
    (h : ∀ d ∈ ds, i ∈ getCellsInBoundingBox N W H d.bbox.x d.bbox.y d.bbox.w d.bbox.h →
      adjustedConf d c ≤ c.confidence) :
    cellPass N W H ds i c = c := by
  induction ds with
  | nil => rfl
  | cons d ds ih =>
    rw [cellPass_cons]
    have hstep : cellStep N W H d i c = c := by
      unfold cellStep
      split
      · exact applyDetectionToCell_of_le d c (h d (List.mem_cons_self d ds) (by assumption))
      · rfl
    rw [hstep]
    exact ih fun d' hd' hm' => h d' (List.mem_cons_of_mem d hd') hm'


theorem mapDetectionToGrid_gridSize (d : Detection) (g : GridManager) :
    (mapDetectionToGrid d g).gridSize = g.gridSize := rfl

theorem mapDetectionToGrid_canvasWidth (d : Detection) (g : GridManager) :
    (mapDetectionToGrid d g).canvasWidth = g.canvasWidth := rfl

theorem mapDetectionToGrid_canvasHeight (d : Detection) (g : GridManager) :
    (mapDetectionToGrid d g).canvasHeight = g.canvasHeight := rfl

theorem mapDetectionToGrid_detections (d : Detection) (g : GridManager) :
    (mapDetectionToGrid d g).detections = g.detections := rfl

theorem mapDetectionToGrid_cells_get? (d : Detection) (g : GridManager) (i : Nat) :
    (mapDetectionToGrid d g).cells.get? i =
      (g.cells.get? i).map (cellStep g.gridSize g.canvasWidth g.canvasHeight d i) := by
  show (List.foldl _ g.cells _).get? i = _
  rw [foldl_modifyIdx_get? (applyDetectionToCell d) (applyDetectionToCell_idem d)]
  by_cases hmem : i ∈ getCellsInBoundingBox g.gridSize g.canvasWidth g.canvasHeight
      d.bbox.x d.bbox.y d.bbox.w d.bbox.h
  · rw [if_pos hmem]
    cases g.cells.get? i <;> simp [cellStep, hmem]
  · rw [if_neg hmem]
    cases g.cells.get? i <;> simp [cellStep, hmem]

theorem detFold_gridSize (ds : List Detection) (g : GridManager) :
    (ds.foldl (fun acc d => mapDetectionToGrid d acc) g).gridSize = g.gridSize := by
  induction ds generalizing g with
  | nil => rfl
  | cons d ds ih => rw [List.foldl_cons, ih, mapDetectionToGrid_gridSize]

theorem detFold_canvasWidth (ds : List Detection) (g : GridManager) :
    (ds.foldl (fun acc d => mapDetectionToGrid d acc) g).canvasWidth = g.canvasWidth := by
  induction ds generalizing g with
  | nil => rfl
  | cons d ds ih => rw [List.foldl_cons, ih, mapDetectionToGrid_canvasWidth]

theorem detFold_canvasHeight (ds : List Detection) (g : GridManager) :
    (ds.foldl (fun acc d => mapDetectionToGrid d acc) g).canvasHeight = g.canvasHeight := by
  induction ds generalizing g with
  | nil => rfl
  | cons d ds ih => rw [List.foldl_cons, ih, mapDetectionToGrid_canvasHeight]

theorem detFold_detections (ds : List Detection) (g : GridManager) :
    (ds.foldl (fun acc d => mapDetectionToGrid d acc) g).detections = g.detections := by
  induction ds generalizing g with
  | nil => rfl
  | cons d ds ih => rw [List.foldl_cons, ih, mapDetectionToGrid_detections]

theorem detFold_cells_get? (ds : List Detection) (g : GridManager) (i : Nat) :
    (ds.foldl (fun acc d => mapDetectionToGrid d acc) g).cells.get? i =
      (g.cells.get? i).map
        (cellPass g.gridSize g.canvasWidth g.canvasHeight ds i) := by
  induction ds generalizing g with
  | nil =>
    conv_rhs => rw [show cellPass g.gridSize g.canvasWidth g.canvasHeight [] i = id from rfl]
    rw [Option.map_id]
    rfl
  | cons d ds ih =>
    rw [List.foldl_cons, ih, mapDetectionToGrid_gridSize, mapDetectionToGrid_canvasWidth,
      mapDetectionToGrid_canvasHeight, mapDetectionToGrid_cells_get?, Option.map_map]
    cases g.cells.get? i <;> simp [cellPass_cons, Function.comp_def]

theorem updateDetections_gridSize (ds : List Detection) (g : GridManager) :
    (updateDetections ds g).gridSize = g.gridSize := by
  unfold updateDetections
  rw [detFold_gridSize]

theorem updateDetections_canvasWidth (ds : List Detection) (g : GridManager) :
    (updateDetections ds g).canvasWidth = g.canvasWidth := by
  unfold updateDetections
  rw [detFold_canvasWidth]

theorem updateDetections_canvasHeight (ds : List Detection) (g : GridManager) :
    (updateDetections ds g).canvasHeight = g.canvasHeight := by
  unfold updateDetections
  rw [detFold_canvasHeight]

theorem updateDetections_detections (ds : List Detection) (g : GridManager) :
    (updateDetections ds g).detections = ds := by
  unfold updateDetections
  rw [detFold_detections]

theorem updateDetections_cells_get? (ds : List Detection) (g : GridManager) (i : Nat) :
    (updateDetections ds g).cells.get? i =
      (g.cells.get? i).map
        (fun c => cellPass g.gridSize g.canvasWidth g.canvasHeight ds i (resetCell c)) := by
  unfold updateDetections
  rw [detFold_cells_get?]
  simp only [List.get?_map, Option.map_map]
  rfl


theorem stateFor_of_big {a : ℚ} (h : 1/10 < a) (s s' : CellState) :
    stateFor a s = stateFor a s' := by
  unfold stateFor
  split
  · rfl
  · split
    · rfl
    · simp [h]

theorem cellPass_state_change (N : Nat) (W H : ℚ) (ds : List Detection) (i : Nat) (c : Cell)
    (h : (cellPass N W H ds i c).state ≠ c.state) :
    ∃ d ∈ ds, i ∈ getCellsInBoundingBox N W H d.bbox.x d.bbox.y d.bbox.w d.bbox.h ∧
      c.confidence < adjustedConf d c ∧ 1/10 < adjustedConf d c := by
  induction ds generalizing c with
  | nil => exact absurd rfl h
  | cons d ds ih =>
    rw [cellPass_cons] at h
    by_cases hs : (cellStep N W H d i c).state = c.state
    · have h' : (cellPass N W H ds i (cellStep N W H d i c)).state ≠
          (cellStep N W H d i c).state := by
        rw [hs]; exact h
      obtain ⟨d', hd', hmem', hconf', hbig'⟩ := ih (cellStep N W H d i c) h'
      have hcongr := adjustedConf_congr (cellStep_shape N W H d i c) d'
      refine ⟨d', List.mem_cons_of_mem d hd', hmem', ?_, ?_⟩
      · calc c.confidence ≤ (cellStep N W H d i c).confidence := cellStep_conf_mono N W H d i c
          _ < adjustedConf d' (cellStep N W H d i c) := hconf'
          _ = adjustedConf d' c := hcongr
      · rw [← hcongr]; exact hbig'
    · -- the head step itself changed the state
      unfold cellStep at hs
      by_cases hmem : i ∈ getCellsInBoundingBox N W H d.bbox.x d.bbox.y d.bbox.w d.bbox.h
      · rw [if_pos hmem, applyDetectionToCell_eq] at hs
        by_cases hadopt : adjustedConf d c > c.confidence
        · rw [if_pos hadopt] at hs
          have hbig : 1/10 < adjustedConf d c := by
            by_contra hle
            apply hs
            show stateFor (adjustedConf d c) c.state = c.state
            have h7 : ¬adjustedConf d c > 7/10 := fun hgt => hle (lt_trans (by norm_num) hgt)
            have h4 : ¬adjustedConf d c > 2/5 := fun hgt => hle (lt_trans (by norm_num) hgt)
            have h1 : ¬adjustedConf d c > 1/10 := hle
            unfold stateFor
            rw [if_neg h7, if_neg h4, if_neg h1]
          exact ⟨d, List.mem_cons_self d ds, hmem, hadopt, hbig⟩
        · rw [if_neg hadopt] at hs
          exact absurd rfl hs
      · rw [if_neg hmem] at hs
        exact absurd rfl hs

theorem exists_max_adj (N : Nat) (W H : ℚ) (ds : List Detection) (i : Nat) (c : Cell)
    (hne : ∃ d ∈ ds, i ∈ getCellsInBoundingBox N W H d.bbox.x d.bbox.y d.bbox.w d.bbox.h) :
    ∃ d0 ∈ ds, i ∈ getCellsInBoundingBox N W H d0.bbox.x d0.bbox.y d0.bbox.w d0.bbox.h ∧
      ∀ d ∈ ds, i ∈ getCellsInBoundingBox N W H d.bbox.x d.bbox.y d.bbox.w d.bbox.h →
        adjustedConf d c ≤ adjustedConf d0 c := by
  induction ds with
  | nil => obtain ⟨d, hd, _⟩ := hne; cases hd
  | cons d ds ih =>
    by_cases hd : i ∈ getCellsInBoundingBox N W H d.bbox.x d.bbox.y d.bbox.w d.bbox.h
    · by_cases htl : ∃ d' ∈ ds,
          i ∈ getCellsInBoundingBox N W H d'.bbox.x d'.bbox.y d'.bbox.w d'.bbox.h
      · obtain ⟨d0, hd0, hm0, hmax⟩ := ih htl
        by_cases hcmp : adjustedConf d0 c ≤ adjustedConf d c
        · refine ⟨d, List.mem_cons_self d ds, hd, ?_⟩
          intro d' hd' hm'
          rcases List.mem_cons.mp hd' with h | h
          · subst h; exact le_refl _
          · exact le_trans (hmax d' h hm') hcmp
        · refine ⟨d0, List.mem_cons_of_mem d hd0, hm0, ?_⟩
          intro d' hd' hm'
          rcases List.mem_cons.mp hd' with h | h
          · subst h; exact le_of_lt (not_le.mp hcmp)
          · exact hmax d' h hm'
      · refine ⟨d, List.mem_cons_self d ds, hd, ?_⟩
        intro d' hd' hm'
        rcases List.mem_cons.mp hd' with h | h
        · subst h; exact le_refl _
        · exact absurd ⟨d', h, hm'⟩ htl
    · have htl : ∃ d' ∈ ds,
          i ∈ getCellsInBoundingBox N W H d'.bbox.x d'.bbox.y d'.bbox.w d'.bbox.h := by
        obtain ⟨dw, hw, hmw⟩ := hne
        rcases List.mem_cons.mp hw with h | h
        · subst h; exact absurd hmw hd
        · exact ⟨dw, h, hmw⟩
      obtain ⟨d0, hd0, hm0, hmax⟩ := ih htl
      refine ⟨d0, List.mem_cons_of_mem d hd0, hm0, ?_⟩
      intro d' hd' hm'
      rcases List.mem_cons.mp hd' with h | h
      · subst h; exact absurd hm' hd
      · exact hmax d' h hm'


theorem cellPass_start_irrel (N : Nat) (W H : ℚ) (ds : List Detection) (i : Nat)
    (u v : Cell) (hsh : sameShape u v) (d0 : Detection) (hd0 : d0 ∈ ds)
    (haff : i ∈ getCellsInBoundingBox N W H d0.bbox.x d0.bbox.y d0.bbox.w d0.bbox.h)
    (hmax : ∀ d ∈ ds, i ∈ getCellsInBoundingBox N W H d.bbox.x d.bbox.y d.bbox.w d.bbox.h →
      adjustedConf d u ≤ adjustedConf d0 u)
    (hu : u.confidence < adjustedConf d0 u) (hv : v.confidence < adjustedConf d0 u)
    (hbig : 1/10 < adjustedConf d0 u) :
    cellPass N W H ds i u = cellPass N W H ds i v := by
  induction ds generalizing u v with
  | nil => cases hd0
  | cons d ds ih =>
    rw [cellPass_cons, cellPass_cons]
    by_cases hmem : i ∈ getCellsInBoundingBox N W H d.bbox.x d.bbox.y d.bbox.w d.bbox.h
    · by_cases heq : adjustedConf d u = adjustedConf d0 u
      · -- the head detection attains the maximum: both sides adopt the same record
        have hadu : adjustedConf d u > u.confidence := heq ▸ hu
        have hvu : adjustedConf d v = adjustedConf d u :=
          adjustedConf_congr (sameShape_symm hsh) d
        have hadv : adjustedConf d v > v.confidence := by rw [hvu, heq]; exact hv
        have hsteps : cellStep N W H d i u = cellStep N W H d i v := by
          unfold cellStep
          rw [if_pos hmem, if_pos hmem, applyDetectionToCell_eq, applyDetectionToCell_eq,
            if_pos hadu, if_pos hadv]
          obtain ⟨h1, h2, h3, h4, h5, h6, h7⟩ := hsh
          have hbig' : 1/10 < adjustedConf d u := heq ▸ hbig
          apply Cell.ext <;>
            simp [h1, h2, h3, h4, h5, h6, h7, hvu, stateFor_of_big hbig' u.state v.state]
        rw [hsteps]
      · have hlt : adjustedConf d u < adjustedConf d0 u :=
          lt_of_le_of_ne (hmax d (List.mem_cons_self d ds) hmem) heq
        have hne : ¬d0 = d := fun h => heq (by rw [h])
        have hd0' : d0 ∈ ds := (List.mem_cons.mp hd0).resolve_left hne
        have hshu : sameShape (cellStep N W H d i u) u := cellStep_shape N W H d i u
        have hshv : sameShape (cellStep N W H d i v) v := cellStep_shape N W H d i v
        have hsh' : sameShape (cellStep N W H d i u) (cellStep N W H d i v) :=
          sameShape_trans hshu (sameShape_trans hsh (sameShape_symm hshv))
        have hcong : ∀ d' : Detection,
            adjustedConf d' (cellStep N W H d i u) = adjustedConf d' u :=
          fun d' => adjustedConf_congr hshu d'
        have hdv : adjustedConf d v = adjustedConf d u :=
          adjustedConf_congr (sameShape_symm hsh) d
        refine ih (cellStep N W H d i u) (cellStep N W H d i v) hsh' hd0' ?_ ?_ ?_ ?_
        · intro d' hd' hm'
          rw [hcong d', hcong d0]
          exact hmax d' (List.mem_cons_of_mem d hd') hm'
        · rw [hcong d0, cellStep_confidence, if_pos hmem]
          exact max_lt hu hlt
        · rw [hcong d0, cellStep_confidence, if_pos hmem, hdv]
          exact max_lt hv hlt
        · rw [hcong d0]
          exact hbig
    · have hu1 : cellStep N W H d i u = u := by unfold cellStep; rw [if_neg hmem]
      have hv1 : cellStep N W H d i v = v := by unfold cellStep; rw [if_neg hmem]
      rw [hu1, hv1]
      have hd0' : d0 ∈ ds := by
        rcases List.mem_cons.mp hd0 with h | h
        · subst h; exact absurd haff hmem
        · exact h
      exact ih u v hsh hd0' (fun d' hd' hm' => hmax d' (List.mem_cons_of_mem d hd') hm')
        hu hv hbig


theorem resetCell_of_inactive {c : Cell} (h : c.state = CellState.inactive) :
    resetCell c = c := by
  unfold resetCell
  rw [if_neg]
  simp [h]

theorem resetCell_of_not_inactive {c : Cell} (h : c.state ≠ CellState.inactive) :
    resetCell c =
      { c with state := CellState.active, confidence := 0, detection := none } := by
  unfold resetCell
  rw [if_pos]
  simpa using h

theorem resetCell_shape (c : Cell) : sameShape (resetCell c) c := by
  unfold resetCell
  split
  · exact ⟨rfl, rfl, rfl, rfl, rfl, rfl, rfl⟩
  · exact sameShape_refl c

/-- The heart of idempotence: one more reset-and-map pass on an
already-passed cell returns the same cell. -/
theorem cellPass_reset_idem (N : Nat) (W H : ℚ) (ds : List Detection) (i : Nat) (c : Cell) :
    cellPass N W H ds i (resetCell (cellPass N W H ds i (resetCell c))) =
      cellPass N W H ds i (resetCell c) := by
  set c0 := resetCell c with hc0def
  set c1 := cellPass N W H ds i c0 with hc1def
  by_cases h1 : c1.state = CellState.inactive
  · rw [resetCell_of_inactive h1]
    apply cellPass_of_le
    intro d hd hm
    have hsh : sameShape c1 c0 := hc1def ▸ cellPass_shape N W H ds i c0
    rw [adjustedConf_congr hsh d]
    have := confFold_mem_le N W H ds i c0 d hd hm c0.confidence
    rw [hc1def, cellPass_confidence]
    exact this
  · rw [resetCell_of_not_inactive h1]
    by_cases hc : c.state = CellState.inactive
    · -- the pass raised an inactive cell out of inactivity
      have hc0 : c0 = c := hc0def ▸ resetCell_of_inactive hc
      have hchange : c1.state ≠ c0.state := by rw [hc0, hc]; exact h1
      have hchange' : (cellPass N W H ds i c0).state ≠ c0.state := hc1def ▸ hchange
      obtain ⟨dw, hdw, hmw, hcw, hbw⟩ := cellPass_state_change N W H ds i c0 hchange'
      obtain ⟨d0, hd0, hm0, hmax0⟩ := exists_max_adj N W H ds i c0 ⟨dw, hdw, hmw⟩
      have hwle : adjustedConf dw c0 ≤ adjustedConf d0 c0 := hmax0 dw hdw hmw
      have hd0big : 1/10 < adjustedConf d0 c0 := lt_of_lt_of_le hbw hwle
      have hd0conf : c0.confidence < adjustedConf d0 c0 := lt_of_lt_of_le hcw hwle
      have hsh1 : sameShape c1 c0 := hc1def ▸ cellPass_shape N W H ds i c0
      have hshv : sameShape c0
          { c1 with state := CellState.active, confidence := 0, detection := none } := by
        refine sameShape_trans (sameShape_symm hsh1) ?_
        exact ⟨rfl, rfl, rfl, rfl, rfl, rfl, rfl⟩
      have hvconf :
          ({ c1 with state := CellState.active, confidence := 0, detection := none } :
            Cell).confidence < adjustedConf d0 c0 := by
        show (0 : ℚ) < adjustedConf d0 c0
        exact lt_trans (by norm_num) hd0big
      exact (cellPass_start_irrel N W H ds i c0
        { c1 with state := CellState.active, confidence := 0, detection := none }
        hshv d0 hd0 hm0 hmax0 hd0conf hvconf hd0big).symm
    · -- the cell was reset at the start of the first pass as well
      have hc0 : c0 =
          { c with state := CellState.active, confidence := 0, detection := none } :=
        hc0def ▸ resetCell_of_not_inactive hc
      have hsh1 : sameShape c1 c0 := hc1def ▸ cellPass_shape N W H ds i c0
      have : ({ c1 with state := CellState.active, confidence := 0, detection := none } :
          Cell) = c0 := by
        obtain ⟨h1', h2', h3', h4', h5', h6', h7'⟩ := hsh1
        apply Cell.ext <;> simp [h1', h2', h3', h4', h5', h6', h7', hc0]
      rw [this]


/-- C5: `updateDetections` is idempotent — a second call with the same
detection list leaves the manager (cells, stored detections, geometry)
exactly as the first call left it. -/
theorem C5_updateDetections_idempotent (g : GridManager) (ds : List Detection) :
    updateDetections ds (updateDetections ds g) = updateDetections ds g := by
  apply GridManager.ext
  · rw [updateDetections_gridSize, updateDetections_gridSize]
  · rw [updateDetections_canvasWidth, updateDetections_canvasWidth]
  · rw [updateDetections_canvasHeight, updateDetections_canvasHeight]
  · apply List.ext_get?
    intro i
    rw [updateDetections_cells_get? ds (updateDetections ds g) i,
      updateDetections_cells_get? ds g i]
    simp only [updateDetections_gridSize, updateDetections_canvasWidth,
      updateDetections_canvasHeight, Option.map_map]
    cases g.cells.get? i with
    | none => rfl
    | some c =>
      exact congrArg some
        (cellPass_reset_idem g.gridSize g.canvasWidth g.canvasHeight ds i c)
  · rw [updateDetections_detections, updateDetections_detections]


theorem confFold_eq_maxAdj (N : Nat) (W H : ℚ) (ds : List Detection) (i : Nat) (c : Cell) :
    ∀ m : ℚ, 0 ≤ m →
      ds.foldl
        (fun m d =>
          if i ∈ getCellsInBoundingBox N W H d.bbox.x d.bbox.y d.bbox.w d.bbox.h then
            max m (adjustedConf d c)
          else m)
        m =
      ds.foldl (fun m d => max m (adjFor N W H i c d)) m := by
  induction ds with
  | nil => intro m _; rfl
  | cons d ds ih =>
    intro m hm
    rw [List.foldl_cons, List.foldl_cons]
    by_cases hmem : i ∈ getCellsInBoundingBox N W H d.bbox.x d.bbox.y d.bbox.w d.bbox.h
    · rw [if_pos hmem]
      unfold adjFor
      rw [if_pos hmem]
      exact ih _ (le_trans hm (le_max_left _ _))
    · rw [if_neg hmem]
      unfold adjFor
      rw [if_neg hmem, max_eq_left hm]
      exact ih _ hm

/-- C3 (amended): for every cell that is not `inactive` when
`updateDetections` is called, the final confidence is exactly the
maximum `adjustedConfidence` over the detections of the call (0 when none
covers the cell). -/
theorem C3_confidence_is_max (g : GridManager) (ds : List Detection) (i : Nat) (c : Cell)
    (h1 : g.cells.get? i = some c) (h2 : c.state ≠ CellState.inactive) :
    ((updateDetections ds g).cells.get? i).map Cell.confidence =
      some (maxAdjFor g.gridSize g.canvasWidth g.canvasHeight ds i c) := by
  rw [updateDetections_cells_get?, h1]
  show some _ = some _
  apply congrArg some
  rw [cellPass_confidence]
  rw [resetCell_of_not_inactive h2]
  have hshape : sameShape
      ({ c with state := CellState.active, confidence := 0, detection := none } : Cell) c :=
    ⟨rfl, rfl, rfl, rfl, rfl, rfl, rfl⟩
  show List.foldl _ (0 : ℚ) _ = _
  rw [List.foldl_ext (l := ds)]
  · exact confFold_eq_maxAdj g.gridSize g.canvasWidth g.canvasHeight ds i c 0 (le_refl 0)
  · intro m d _
    rw [adjustedConf_congr hshape d]

/-- Witness for `C3_confidence_is_max` at the activated 3×3 demo grid and
the spec's scenario detection. -/
theorem C3_confidence_is_max_witness :
    demoGridActive.cells.get? 0 = some (demoGridActive.cells.getD 0 default) ∧
    (demoGridActive.cells.getD 0 default).state ≠ CellState.inactive ∧
    ((updateDetections [demoDet] demoGridActive).cells.get? 0).map Cell.confidence =
      some (maxAdjFor demoGridActive.gridSize demoGridActive.canvasWidth
        demoGridActive.canvasHeight [demoDet] 0 (demoGridActive.cells.getD 0 default)) :=
  ⟨rfl, by decide,
    C3_confidence_is_max demoGridActive [demoDet] 0 _ rfl (by decide)⟩


/-- C4: a candidate cell adopts a detection exactly when the adjusted
confidence strictly exceeds its current confidence (with the threshold
states `confident`/`detected`/`detecting` and the state otherwise left
unchanged), and on equal adjusted confidences the first-processed
detection keeps the cell. -/
theorem C4_adoption_rule (d1 d2 : Detection) (c : Cell) :
    (applyDetectionToCell d1 c =
      if adjustedConf d1 c > c.confidence then
        { c with
            confidence := adjustedConf d1 c
            detection := some d1
            state := stateFor (adjustedConf d1 c) c.state }
      else c) ∧
    (adjustedConf d1 c = adjustedConf d2 c →
      applyDetectionToCell d2 (applyDetectionToCell d1 c) = applyDetectionToCell d1 c) := by
  refine ⟨applyDetectionToCell_eq d1 c, ?_⟩
  intro htie
  by_cases h : adjustedConf d1 c > c.confidence
  · apply applyDetectionToCell_of_le
    rw [adjustedConf_congr (applyDetectionToCell_shape d1 c) d2, ← htie,
      applyDetectionToCell_confidence]
    exact le_max_right _ _
  · rw [applyDetectionToCell_of_le d1 c (not_lt.mp h)]
    exact applyDetectionToCell_of_le d2 c (htie ▸ not_lt.mp h)

/-- Witness for `C4_adoption_rule`: two distinct detections with equal
adjusted confidence on a concrete cell; the first one processed keeps the
cell. -/
theorem C4_adoption_rule_witness :
    adjustedConf ⟨1, ⟨0, 0, 1, 1⟩⟩ (default : Cell) =
      adjustedConf ⟨1, ⟨0, 0, 2, 2⟩⟩ (default : Cell) ∧
    applyDetectionToCell ⟨1, ⟨0, 0, 2, 2⟩⟩
        (applyDetectionToCell ⟨1, ⟨0, 0, 1, 1⟩⟩ (default : Cell)) =
      applyDetectionToCell ⟨1, ⟨0, 0, 1, 1⟩⟩ (default : Cell) := by
  have h : adjustedConf ⟨1, ⟨0, 0, 1, 1⟩⟩ (default : Cell) =
      adjustedConf ⟨1, ⟨0, 0, 2, 2⟩⟩ (default : Cell) := by
    simp [adjustedConf, calculateIntersection, default]
  exact ⟨h, (C4_adoption_rule ⟨1, ⟨0, 0, 1, 1⟩⟩ ⟨1, ⟨0, 0, 2, 2⟩⟩ (default : Cell)).2 h⟩


theorem calculateIoU_eq (b1 b2 : BBox) :
    calculateIoU b1 b2 =
      if b1.w * b1.h + b2.w * b2.h -
          max 0 (min (b1.x + b1.w) (b2.x + b2.w) - max b1.x b2.x) *
            max 0 (min (b1.y + b1.h) (b2.y + b2.h) - max b1.y b2.y) > 0 then
        max 0 (min (b1.x + b1.w) (b2.x + b2.w) - max b1.x b2.x) *
            max 0 (min (b1.y + b1.h) (b2.y + b2.h) - max b1.y b2.y) /
          (b1.w * b1.h + b2.w * b2.h -
            max 0 (min (b1.x + b1.w) (b2.x + b2.w) - max b1.x b2.x) *
              max 0 (min (b1.y + b1.h) (b2.y + b2.h) - max b1.y b2.y))
      else 0 := rfl

/-- C7: for boxes of positive width and height, `calculateIoU` lies in
`[0, 1]`, and the IoU of a box with itself is `1`. -/
theorem C7_iou_bounds (b1 b2 : BBox)
    (hw1 : 0 < b1.w) (hh1 : 0 < b1.h) (hw2 : 0 < b2.w) (hh2 : 0 < b2.h) :
    (0 ≤ calculateIoU b1 b2 ∧ calculateIoU b1 b2 ≤ 1) ∧ calculateIoU b1 b1 = 1 := by
  constructor
  · rw [calculateIoU_eq]
    set A := max 0 (min (b1.x + b1.w) (b2.x + b2.w) - max b1.x b2.x) with hA
    set B := max 0 (min (b1.y + b1.h) (b2.y + b2.h) - max b1.y b2.y) with hB
    have hA0 : 0 ≤ A := le_max_left 0 _
    have hB0 : 0 ≤ B := le_max_left 0 _
    have hAw : A ≤ b1.w := by
      rw [hA]
      apply max_le hw1.le
      have h1 : min (b1.x + b1.w) (b2.x + b2.w) ≤ b1.x + b1.w := min_le_left _ _
      have h2 : b1.x ≤ max b1.x b2.x := le_max_left _ _
      linarith
    have hBh : B ≤ b1.h := by
      rw [hB]
      apply max_le hh1.le
      have h1 : min (b1.y + b1.h) (b2.y + b2.h) ≤ b1.y + b1.h := min_le_left _ _
      have h2 : b1.y ≤ max b1.y b2.y := le_max_left _ _
      linarith
    have hinter1 : A * B ≤ b1.w * b1.h := mul_le_mul hAw hBh hB0 hw1.le
    have hAw2 : A ≤ b2.w := by
      rw [hA]
      apply max_le hw2.le
      have h1 : min (b1.x + b1.w) (b2.x + b2.w) ≤ b2.x + b2.w := min_le_right _ _
      have h2 : b2.x ≤ max b1.x b2.x := le_max_right _ _
      linarith
    have hBh2 : B ≤ b2.h := by
      rw [hB]
      apply max_le hh2.le
      have h1 : min (b1.y + b1.h) (b2.y + b2.h) ≤ b2.y + b2.h := min_le_right _ _
      have h2 : b2.y ≤ max b1.y b2.y := le_max_right _ _
      linarith
    have hinter2 : A * B ≤ b2.w * b2.h := mul_le_mul hAw2 hBh2 hB0 hw2.le
    split
    · rename_i hpos
      constructor
      · exact div_nonneg (mul_nonneg hA0 hB0) (le_of_lt hpos)
      · rw [div_le_one hpos]
        linarith
    · exact ⟨le_refl 0, by norm_num⟩
  · rw [calculateIoU_eq]
    have hxx : max b1.x b1.x = b1.x := max_self _
    have hyy : max b1.y b1.y = b1.y := max_self _
    have hxm : min (b1.x + b1.w) (b1.x + b1.w) = b1.x + b1.w := min_self _
    have hym : min (b1.y + b1.h) (b1.y + b1.h) = b1.y + b1.h := min_self _
    rw [hxx, hyy, hxm, hym]
    have hw : max 0 (b1.x + b1.w - b1.x) = b1.w := by
      rw [max_eq_right] <;> linarith
    have hh : max 0 (b1.y + b1.h - b1.y) = b1.h := by
      rw [max_eq_right] <;> linarith
    rw [hw, hh]
    have harea : 0 < b1.w * b1.h := mul_pos hw1 hh1
    rw [if_pos (by linarith)]
    have : b1.w * b1.h + b1.w * b1.h - b1.w * b1.h = b1.w * b1.h := by ring
    rw [this]
    exact div_self (ne_of_gt harea)

/-- Witness for `C7_iou_bounds` at two concrete unit boxes. -/
theorem C7_iou_bounds_witness :
    (0 : ℚ) < 1 ∧ (0 : ℚ) < 1 ∧ (0 : ℚ) < 2 ∧ (0 : ℚ) < 2 ∧
    ((0 ≤ calculateIoU ⟨0, 0, 1, 1⟩ ⟨5, 5, 2, 2⟩ ∧
        calculateIoU ⟨0, 0, 1, 1⟩ ⟨5, 5, 2, 2⟩ ≤ 1) ∧
      calculateIoU ⟨0, 0, 1, 1⟩ ⟨0, 0, 1, 1⟩ = 1) :=
  ⟨by norm_num, by norm_num, by norm_num, by norm_num,
    C7_iou_bounds ⟨0, 0, 1, 1⟩ ⟨5, 5, 2, 2⟩ (by norm_num) (by norm_num)
      (by norm_num) (by norm_num)⟩


theorem calculateIntersection_eq (c : Cell) (b : BBox) :
    calculateIntersection c b =
      if max c.x b.x < min (c.x + c.width) (b.x + b.w) ∧
          max c.y b.y < min (c.y + c.height) (b.y + b.h) then
        (min (c.x + c.width) (b.x + b.w) - max c.x b.x) *
          (min (c.y + c.height) (b.y + b.h) - max c.y b.y)
      else 0 := rfl

theorem calculateIntersection_bounds (c : Cell) (b : BBox)
    (hw : 0 ≤ c.width) (hh : 0 ≤ c.height) :
    0 ≤ calculateIntersection c b ∧
      calculateIntersection c b ≤ c.width * c.height := by
  rw [calculateIntersection_eq]
  split
  · rename_i hov
    obtain ⟨h1, h2⟩ := hov
    have hx1 : min (c.x + c.width) (b.x + b.w) ≤ c.x + c.width := min_le_left _ _
    have hx2 : c.x ≤ max c.x b.x := le_max_left _ _
    have hy1 : min (c.y + c.height) (b.y + b.h) ≤ c.y + c.height := min_le_left _ _
    have hy2 : c.y ≤ max c.y b.y := le_max_left _ _
    constructor
    · exact mul_nonneg (by linarith) (by linarith)
    · exact mul_le_mul (by linarith) (by linarith) (by linarith) hw
  · exact ⟨le_refl 0, mul_nonneg hw hh⟩

theorem adjustedConf_bounds (d : Detection) (c : Cell)
    (hs0 : 0 ≤ d.score) (hs1 : d.score ≤ 1) (hw : 0 ≤ c.width) (hh : 0 ≤ c.height) :
    0 ≤ adjustedConf d c ∧ adjustedConf d c ≤ 1 := by
  obtain ⟨hi0, hi1⟩ := calculateIntersection_bounds c d.bbox hw hh
  unfold adjustedConf
  by_cases hz : c.width * c.height = 0
  · have : calculateIntersection c d.bbox = 0 := le_antisymm (hz ▸ hi1) hi0
    rw [this, hz]
    norm_num
  · have hpos : 0 < c.width * c.height :=
      lt_of_le_of_ne (mul_nonneg hw hh) (Ne.symm hz)
    have hr0 : 0 ≤ calculateIntersection c d.bbox / (c.width * c.height) :=
      div_nonneg hi0 hpos.le
    have hr1 : calculateIntersection c d.bbox / (c.width * c.height) ≤ 1 :=
      (div_le_one hpos).mpr hi1
    exact ⟨mul_nonneg hs0 hr0, mul_le_one hs1 hr0 hr1⟩

theorem applyDetectionToCell_cellOK (d : Detection) (c : Cell)
    (hs0 : 0 ≤ d.score) (hs1 : d.score ≤ 1) (hc : cellOK c) :
    cellOK (applyDetectionToCell d c) := by
  obtain ⟨hw, hh, h0, h1⟩ := hc
  rw [applyDetectionToCell_eq]
  split
  · obtain ⟨ha0, ha1⟩ := adjustedConf_bounds d c hs0 hs1 hw hh
    exact ⟨hw, hh, ha0, ha1⟩
  · exact ⟨hw, hh, h0, h1⟩

theorem modifyIdx_forall {P : Cell → Prop} (f : Cell → Cell) (n : Nat) (cs : List Cell)
    (hf : ∀ c, P c → P (f c)) (h : ∀ c ∈ cs, P c) :
    ∀ c ∈ modifyIdx f n cs, P c := by
  induction cs generalizing n with
  | nil =>
    intro c hc
    rw [show modifyIdx f n ([] : List Cell) = [] from by cases n <;> rfl] at hc
    cases hc
  | cons c0 cs ih =>
    cases n with
    | zero =>
      intro c hc
      rcases List.mem_cons.mp hc with h' | h'
      · subst h'; exact hf c0 (h c0 (List.mem_cons_self c0 cs))
      · exact h c (List.mem_cons_of_mem c0 h')
    | succ n =>
      intro c hc
      rcases List.mem_cons.mp hc with h' | h'
      · subst h'; exact h c (List.mem_cons_self c cs)
      · exact ih n (fun c' hc' => h c' (List.mem_cons_of_mem c0 hc')) c h'

theorem foldl_modifyIdx_forall {P : Cell → Prop} (f : Cell → Cell)
    (hf : ∀ c, P c → P (f c)) :
    ∀ (L : List Nat) (cs : List Cell), (∀ c ∈ cs, P c) →
      ∀ c ∈ L.foldl (fun cs n => modifyIdx f n cs) cs, P c := by
  intro L
  induction L with
  | nil => intro cs h; simpa using h
  | cons n L ih =>
    intro cs h
    rw [List.foldl_cons]
    exact ih _ (modifyIdx_forall f n cs hf h)

theorem mapDetectionToGrid_gridOK (d : Detection) (g : GridManager)
    (hs0 : 0 ≤ d.score) (hs1 : d.score ≤ 1) (hg : gridOK g) :
    gridOK (mapDetectionToGrid d g) := by
  obtain ⟨hcw, hch, hcells⟩ := hg
  refine ⟨hcw, hch, ?_⟩
  show ∀ c ∈ List.foldl _ g.cells _, cellOK c
  exact foldl_modifyIdx_forall (applyDetectionToCell d)
    (fun c hc => applyDetectionToCell_cellOK d c hs0 hs1 hc) _ g.cells hcells


theorem resetCell_cellOK (c : Cell) (hc : cellOK c) : cellOK (resetCell c) := by
  obtain ⟨hw, hh, h0, h1⟩ := hc
  unfold resetCell
  split
  · exact ⟨hw, hh, le_refl 0, by norm_num⟩
  · exact ⟨hw, hh, h0, h1⟩

theorem updateDetections_gridOK (ds : List Detection) (g : GridManager)
    (hds : detsOK ds) (hg : gridOK g) : gridOK (updateDetections ds g) := by
  unfold updateDetections
  have hg1 : gridOK { g with detections := ds, cells := g.cells.map resetCell } := by
    obtain ⟨hcw, hch, hcells⟩ := hg
    refine ⟨hcw, hch, ?_⟩
    intro c hc
    rw [List.mem_map] at hc
    obtain ⟨c0, hc0, rfl⟩ := hc
    exact resetCell_cellOK c0 (hcells c0 hc0)
  generalize hG : ({ g with detections := ds, cells := g.cells.map resetCell } :
    GridManager) = g1 at hg1
  clear hG
  induction ds generalizing g1 with
  | nil => exact hg1
  | cons d ds ih =>
    rw [List.foldl_cons]
    have hd := hds d (List.mem_cons_self d ds)
    exact ih (fun d' hd' => hds d' (List.mem_cons_of_mem d hd'))
      (mapDetectionToGrid d g1) (mapDetectionToGrid_gridOK d g1 hd.1 hd.2.1 hg1)

theorem activateCell_gridOK (i : Nat) (g : GridManager) (hg : gridOK g) :
    gridOK (activateCell i g) := by
  obtain ⟨hcw, hch, hcells⟩ := hg
  refine ⟨hcw, hch, ?_⟩
  exact modifyIdx_forall _ i g.cells
    (fun c hc => by obtain ⟨hw, hh, h0, h1⟩ := hc; exact ⟨hw, hh, h0, h1⟩) hcells

theorem deactivateCell_gridOK (i : Nat) (g : GridManager) (hg : gridOK g) :
    gridOK (deactivateCell i g) := by
  obtain ⟨hcw, hch, hcells⟩ := hg
  refine ⟨hcw, hch, ?_⟩
  exact modifyIdx_forall _ i g.cells
    (fun c hc => by
      obtain ⟨hw, hh, h0, h1⟩ := hc
      exact ⟨hw, hh, le_refl 0, by norm_num⟩) hcells

theorem clearDetections_gridOK (g : GridManager) (hg : gridOK g) :
    gridOK (clearDetections g) := by
  unfold clearDetections
  have hg1 : gridOK { g with detections := ([] : List Detection) } := by
    obtain ⟨hcw, hch, hcells⟩ := hg
    exact ⟨hcw, hch, hcells⟩
  generalize ({ g with detections := ([] : List Detection) } : GridManager) = g1 at hg1
  generalize (g.cells.map Cell.id) = L
  induction L generalizing g1 with
  | nil => exact hg1
  | cons n L ih =>
    rw [List.foldl_cons]
    exact ih (deactivateCell n g1) (deactivateCell_gridOK n g1 hg1)

theorem calculateCellPositions_gridOK (g : GridManager)
    (hcw : 0 ≤ g.canvasWidth) (hch : 0 ≤ g.canvasHeight)
    (hconf : ∀ c ∈ g.cells, 0 ≤ c.confidence ∧ c.confidence ≤ 1) :
    gridOK (calculateCellPositions g) := by
  refine ⟨hcw, hch, ?_⟩
  intro c hc
  rw [show (calculateCellPositions g).cells = g.cells.map _ from rfl, List.mem_map] at hc
  obtain ⟨c0, hc0, rfl⟩ := hc
  obtain ⟨h0, h1⟩ := hconf c0 hc0
  refine ⟨?_, ?_, h0, h1⟩
  · exact div_nonneg hcw (by positivity)
  · exact div_nonneg hch (by positivity)

theorem createGrid_gridOK (g : GridManager)
    (hcw : 0 ≤ g.canvasWidth) (hch : 0 ≤ g.canvasHeight) :
    gridOK (createGrid g) := by
  show gridOK (calculateCellPositions
    { g with cells := (List.range (g.gridSize * g.gridSize)).map fun i =>
        { id := i, row := i / g.gridSize, col := i % g.gridSize, x := 0, y := 0,
          width := 0, height := 0, state := CellState.inactive, confidence := 0,
          detection := none : Cell } })
  refine calculateCellPositions_gridOK _ ?_ ?_ ?_
  · exact hcw
  · exact hch
  · intro c hc
    rw [List.mem_map] at hc
    obtain ⟨i, _, rfl⟩ := hc
    exact ⟨le_refl 0, by norm_num⟩

/-- C10: with scores in `[0,1]` and boxes of nonnegative extent, every
grid operation keeps every cell's confidence in `[0,1]`, because a
cell/box intersection area is never negative and never exceeds the cell's
own area. -/
theorem C10_confidence_invariant (g : GridManager) (ds : List Detection) (i N : Nat)
    (w h : ℚ) (hg : gridOK g) (hds : detsOK ds) (hw : 0 ≤ w) (hh : 0 ≤ h) :
    (∀ (c : Cell) (b : BBox), 0 ≤ c.width → 0 ≤ c.height →
      0 ≤ calculateIntersection c b ∧ calculateIntersection c b ≤ c.width * c.height) ∧
    gridOK (updateDetections ds g) ∧
    gridOK (activateCell i g) ∧
    gridOK (deactivateCell i g) ∧
    gridOK (clearDetections g) ∧
    gridOK (setGridSize N g) ∧
    gridOK (resize w h g) := by
  refine ⟨fun c b hcw hch => calculateIntersection_bounds c b hcw hch,
    updateDetections_gridOK ds g hds hg,
    activateCell_gridOK i g hg,
    deactivateCell_gridOK i g hg,
    clearDetections_gridOK g hg,
    ?_, ?_⟩
  · exact createGrid_gridOK _ hg.1 hg.2.1
  · apply calculateCellPositions_gridOK _ hw hh
    intro c hc
    exact ⟨(hg.2.2 c hc).2.2.1, (hg.2.2 c hc).2.2.2⟩

/-- Witness for `C10_confidence_invariant` on a small concrete manager
and detection list. -/
theorem C10_confidence_invariant_witness :
    gridOK ⟨3, 300, 300, [], []⟩ ∧ detsOK [⟨1, ⟨0, 0, 1, 1⟩⟩] ∧
    (0 : ℚ) ≤ 40 ∧ (0 : ℚ) ≤ 30 ∧
    (gridOK (updateDetections [⟨1, ⟨0, 0, 1, 1⟩⟩] ⟨3, 300, 300, [], []⟩) ∧
      gridOK (activateCell 0 ⟨3, 300, 300, [], []⟩) ∧
      gridOK (deactivateCell 0 ⟨3, 300, 300, [], []⟩) ∧
      gridOK (clearDetections ⟨3, 300, 300, [], []⟩) ∧
      gridOK (setGridSize 7 ⟨3, 300, 300, [], []⟩) ∧
      gridOK (resize 40 30 ⟨3, 300, 300, [], []⟩)) := by
  have h1 : gridOK ⟨3, 300, 300, [], []⟩ := by
    refine ⟨by norm_num, by norm_num, ?_⟩
    intro c hc
    cases hc
  have h2 : detsOK [⟨1, ⟨0, 0, 1, 1⟩⟩] := by
    intro d hd
    rcases List.mem_cons.mp hd with h | h
    · subst h; norm_num
    · cases h
  have h3 : (0 : ℚ) ≤ 40 := by norm_num
  have h4 : (0 : ℚ) ≤ 30 := by norm_num
  have := C10_confidence_invariant ⟨3, 300, 300, [], []⟩ [⟨1, ⟨0, 0, 1, 1⟩⟩] 0 7 40 30
    h1 h2 h3 h4
  exact ⟨h1, h2, h3, h4, this.2⟩


theorem setGridSize_cells_eq (N : Nat) (g : GridManager) :
    (setGridSize N g).cells =
      (List.range (N * N)).map (tileCell N g.canvasWidth g.canvasHeight) := by
  show (List.map _ (List.map _ (List.range (N * N)))) = _
  rw [List.map_map]
  rfl

theorem sum_map_const_rat {X : Type} (l : List X) (a : ℚ) :
    (l.map fun _ => a).sum = l.length * a := by
  induction l with
  | nil => simp
  | cons x l ih =>
    rw [List.map_cons, List.sum_cons, ih, List.length_cons]
    push_cast
    ring

theorem calcInter_zero_x (c : Cell) (b : BBox)
    (h : b.x + b.w ≤ c.x ∨ c.x + c.width ≤ b.x) : calculateIntersection c b = 0 := by
  rw [calculateIntersection_eq, if_neg]
  rintro ⟨h1, -⟩
  rcases h with h | h
  · have e1 : min (c.x + c.width) (b.x + b.w) ≤ b.x + b.w := min_le_right _ _
    have e2 : c.x ≤ max c.x b.x := le_max_left _ _
    linarith
  · have e1 : min (c.x + c.width) (b.x + b.w) ≤ c.x + c.width := min_le_left _ _
    have e2 : b.x ≤ max c.x b.x := le_max_right _ _
    linarith

theorem calcInter_zero_y (c : Cell) (b : BBox)
    (h : b.y + b.h ≤ c.y ∨ c.y + c.height ≤ b.y) : calculateIntersection c b = 0 := by
  rw [calculateIntersection_eq, if_neg]
  rintro ⟨-, h2⟩
  rcases h with h | h
  · have e1 : min (c.y + c.height) (b.y + b.h) ≤ b.y + b.h := min_le_right _ _
    have e2 : c.y ≤ max c.y b.y := le_max_left _ _
    linarith
  · have e1 : min (c.y + c.height) (b.y + b.h) ≤ c.y + c.height := min_le_left _ _
    have e2 : b.y ≤ max c.y b.y := le_max_right _ _
    linarith


/-- C6: for `N ∈ {7, 13, 19}` and a canvas of positive extent,
`setGridSize N` produces exactly `N²` cells — the cell at index `i` is
`tileCell N W H i`, i.e. has width `canvasWidth/N`, height
`canvasHeight/N` at `(col·cellWidth, row·cellHeight)` — whose areas sum
to the canvas area, whose pairwise intersections are zero, which cover
every canvas point, and which carry no state from before the call
(`inactive`, confidence `0`, no owner). -/
theorem C6_setGridSize_tiles (N : Nat) (g : GridManager)
    (hN : N = 7 ∨ N = 13 ∨ N = 19)
    (hW : 0 < g.canvasWidth) (hH : 0 < g.canvasHeight) :
    (setGridSize N g).cells.length = N * N ∧
    (∀ i, i < N * N → (setGridSize N g).cells.get? i =
      some (tileCell N g.canvasWidth g.canvasHeight i)) ∧
    ((setGridSize N g).cells.map fun c => c.width * c.height).sum =
      g.canvasWidth * g.canvasHeight ∧
    (∀ c1 ∈ (setGridSize N g).cells, ∀ c2 ∈ (setGridSize N g).cells, c1.id ≠ c2.id →
      calculateIntersection c1 ⟨c2.x, c2.y, c2.width, c2.height⟩ = 0) ∧
    (∀ px py : ℚ, 0 ≤ px → px < g.canvasWidth → 0 ≤ py → py < g.canvasHeight →
      ∃ c ∈ (setGridSize N g).cells,
        c.x ≤ px ∧ px < c.x + c.width ∧ c.y ≤ py ∧ py < c.y + c.height) ∧
    (∀ c ∈ (setGridSize N g).cells,
      c.state = CellState.inactive ∧ c.confidence = 0 ∧ c.detection = none) := by
  have hN0 : N ≠ 0 := by rcases hN with h | h | h <;> subst h <;> decide
  have hNQ : (0 : ℚ) < (N : ℚ) := by
    exact_mod_cast Nat.pos_of_ne_zero hN0
  have hcw : 0 < g.canvasWidth / (N : ℚ) := div_pos hW hNQ
  have hch : 0 < g.canvasHeight / (N : ℚ) := div_pos hH hNQ
  refine ⟨?_, ?_, ?_, ?_, ?_, ?_⟩
  · rw [setGridSize_cells_eq, List.length_map, List.length_range]
  · intro i hi
    rw [setGridSize_cells_eq, List.get?_map, List.get?_range hi]
    rfl
  · rw [setGridSize_cells_eq, List.map_map]
    rw [show ((List.range (N * N)).map
          ((fun c : Cell => c.width * c.height) ∘ tileCell N g.canvasWidth g.canvasHeight)) =
        ((List.range (N * N)).map fun _ =>
          (g.canvasWidth / (N : ℚ)) * (g.canvasHeight / (N : ℚ))) from rfl]
    rw [sum_map_const_rat, List.length_range]
    push_cast
    field_simp
  · intro c1 hc1 c2 hc2 hne
    rw [setGridSize_cells_eq, List.mem_map] at hc1 hc2
    obtain ⟨i1, hi1, rfl⟩ := hc1
    obtain ⟨i2, hi2, rfl⟩ := hc2
    rw [List.mem_range] at hi1 hi2
    have hine : i1 ≠ i2 := by
      intro h
      exact hne (by rw [h])
    have hsplit : i1 % N ≠ i2 % N ∨ i1 / N ≠ i2 / N := by
      by_contra hcon
      push_neg at hcon
      obtain ⟨hm, hd⟩ := hcon
      refine hine ?_
      calc i1 = N * (i1 / N) + i1 % N := (Nat.div_add_mod i1 N).symm
        _ = N * (i2 / N) + i2 % N := by rw [hm, hd]
        _ = i2 := Nat.div_add_mod i2 N
    have key : ∀ a b : Nat, a < b →
        ((a : ℚ) + 1) * (g.canvasWidth / (N : ℚ)) ≤ (b : ℚ) * (g.canvasWidth / (N : ℚ)) := by
      intro a b hab
      apply mul_le_mul_of_nonneg_right _ hcw.le
      exact_mod_cast hab
    have keyh : ∀ a b : Nat, a < b →
        ((a : ℚ) + 1) * (g.canvasHeight / (N : ℚ)) ≤ (b : ℚ) * (g.canvasHeight / (N : ℚ)) := by
      intro a b hab
      apply mul_le_mul_of_nonneg_right _ hch.le
      exact_mod_cast hab
    rcases hsplit with hcol | hrow
    · rcases Nat.lt_or_ge (i1 % N) (i2 % N) with h | h
      · apply calcInter_zero_x
        right
        show ((i1 % N : Nat) : ℚ) * _ + _ ≤ ((i2 % N : Nat) : ℚ) * _
        calc ((i1 % N : Nat) : ℚ) * (g.canvasWidth / (N : ℚ)) + g.canvasWidth / (N : ℚ)
            = (((i1 % N : Nat) : ℚ) + 1) * (g.canvasWidth / (N : ℚ)) := by ring
          _ ≤ ((i2 % N : Nat) : ℚ) * (g.canvasWidth / (N : ℚ)) := key _ _ h
      · have h' : i2 % N < i1 % N := lt_of_le_of_ne h (Ne.symm hcol)
        apply calcInter_zero_x
        left
        show ((i2 % N : Nat) : ℚ) * _ + _ ≤ ((i1 % N : Nat) : ℚ) * _
        calc ((i2 % N : Nat) : ℚ) * (g.canvasWidth / (N : ℚ)) + g.canvasWidth / (N : ℚ)
            = (((i2 % N : Nat) : ℚ) + 1) * (g.canvasWidth / (N : ℚ)) := by ring
          _ ≤ ((i1 % N : Nat) : ℚ) * (g.canvasWidth / (N : ℚ)) := key _ _ h'
    · rcases Nat.lt_or_ge (i1 / N) (i2 / N) with h | h
      · apply calcInter_zero_y
        right
        show ((i1 / N : Nat) : ℚ) * _ + _ ≤ ((i2 / N : Nat) : ℚ) * _
        calc ((i1 / N : Nat) : ℚ) * (g.canvasHeight / (N : ℚ)) + g.canvasHeight / (N : ℚ)
            = (((i1 / N : Nat) : ℚ) + 1) * (g.canvasHeight / (N : ℚ)) := by ring
          _ ≤ ((i2 / N : Nat) : ℚ) * (g.canvasHeight / (N : ℚ)) := keyh _ _ h
      · have h' : i2 / N < i1 / N := lt_of_le_of_ne h (Ne.symm hrow)
        apply calcInter_zero_y
        left
        show ((i2 / N : Nat) : ℚ) * _ + _ ≤ ((i1 / N : Nat) : ℚ) * _
        calc ((i2 / N : Nat) : ℚ) * (g.canvasHeight / (N : ℚ)) + g.canvasHeight / (N : ℚ)
            = (((i2 / N : Nat) : ℚ) + 1) * (g.canvasHeight / (N : ℚ)) := by ring
          _ ≤ ((i1 / N : Nat) : ℚ) * (g.canvasHeight / (N : ℚ)) := keyh _ _ h'
  · intro px py hpx0 hpxW hpy0 hpyH
    set cw := g.canvasWidth / (N : ℚ) with hcwdef
    set ch := g.canvasHeight / (N : ℚ) with hchdef
    have hzc0 : (0 : ℤ) ≤ ⌊px / cw⌋ := Int.floor_nonneg.mpr (div_nonneg hpx0 hcw.le)
    have hzr0 : (0 : ℤ) ≤ ⌊py / ch⌋ := Int.floor_nonneg.mpr (div_nonneg hpy0 hch.le)
    set col := (⌊px / cw⌋).toNat with hcoldef
    set row := (⌊py / ch⌋).toNat with hrowdef
    have hcolq : ((col : ℕ) : ℚ) = ((⌊px / cw⌋ : ℤ) : ℚ) := by
      rw [hcoldef]
      exact_mod_cast congrArg (fun z : ℤ => (z : ℚ)) (Int.toNat_of_nonneg hzc0)
    have hrowq : ((row : ℕ) : ℚ) = ((⌊py / ch⌋ : ℤ) : ℚ) := by
      rw [hrowdef]
      exact_mod_cast congrArg (fun z : ℤ => (z : ℚ)) (Int.toNat_of_nonneg hzr0)
    have hcolN : col < N := by
      have h1 : px / cw < (N : ℚ) := by
        rw [div_lt_iff hcw]
        calc px < g.canvasWidth := hpxW
          _ = (N : ℚ) * cw := by rw [hcwdef]; field_simp
      have h2 : ⌊px / cw⌋ < (N : ℤ) := Int.floor_lt.mpr (by exact_mod_cast h1)
      omega
    have hrowN : row < N := by
      have h1 : py / ch < (N : ℚ) := by
        rw [div_lt_iff hch]
        calc py < g.canvasHeight := hpyH
          _ = (N : ℚ) * ch := by rw [hchdef]; field_simp
      have h2 : ⌊py / ch⌋ < (N : ℤ) := Int.floor_lt.mpr (by exact_mod_cast h1)
      omega
    have hiN : row * N + col < N * N := by
      calc row * N + col < row * N + N := by omega
        _ = (row + 1) * N := by ring
        _ ≤ N * N := Nat.mul_le_mul_right N hrowN
    have hdiv : (row * N + col) / N = row := by
      rw [Nat.mul_comm row N, Nat.mul_add_div (Nat.pos_of_ne_zero hN0),
        Nat.div_eq_of_lt hcolN, Nat.add_zero]
    have hmod : (row * N + col) % N = col := by
      rw [Nat.mul_comm row N, Nat.mul_add_mod, Nat.mod_eq_of_lt hcolN]
    refine ⟨tileCell N g.canvasWidth g.canvasHeight (row * N + col), ?_, ?_, ?_, ?_, ?_⟩
    · rw [setGridSize_cells_eq, List.mem_map]
      exact ⟨row * N + col, List.mem_range.mpr hiN, rfl⟩
    · show ((((row * N + col) % N : Nat)) : ℚ) * cw ≤ px
      rw [hmod, hcolq]
      have hfle := Int.floor_le (px / cw)
      calc ((⌊px / cw⌋ : ℤ) : ℚ) * cw ≤ (px / cw) * cw :=
            mul_le_mul_of_nonneg_right hfle hcw.le
        _ = px := by field_simp
    · show px < (((row * N + col) % N : Nat) : ℚ) * cw + cw
      rw [hmod, hcolq]
      have hflt := Int.lt_floor_add_one (px / cw)
      calc px = (px / cw) * cw := by field_simp
        _ < (((⌊px / cw⌋ : ℤ) : ℚ) + 1) * cw := by
            apply mul_lt_mul_of_pos_right _ hcw
            exact_mod_cast hflt
        _ = ((⌊px / cw⌋ : ℤ) : ℚ) * cw + cw := by ring
    · show ((((row * N + col) / N : Nat)) : ℚ) * ch ≤ py
      rw [hdiv, hrowq]
      have hfle := Int.floor_le (py / ch)
      calc ((⌊py / ch⌋ : ℤ) : ℚ) * ch ≤ (py / ch) * ch :=
            mul_le_mul_of_nonneg_right hfle hch.le
        _ = py := by field_simp
    · show py < (((row * N + col) / N : Nat) : ℚ) * ch + ch
      rw [hdiv, hrowq]
      have hflt := Int.lt_floor_add_one (py / ch)
      calc py = (py / ch) * ch := by field_simp
        _ < (((⌊py / ch⌋ : ℤ) : ℚ) + 1) * ch := by
            apply mul_lt_mul_of_pos_right _ hch
            exact_mod_cast hflt
        _ = ((⌊py / ch⌋ : ℤ) : ℚ) * ch + ch := by ring
  · intro c hc
    rw [setGridSize_cells_eq, List.mem_map] at hc
    obtain ⟨i, _, rfl⟩ := hc
    exact ⟨rfl, rfl, rfl⟩

/-- Witness for `C6_setGridSize_tiles` at `N = 7` on a 300×300 canvas. -/
theorem C6_setGridSize_tiles_witness :
    ((7 : Nat) = 7 ∨ (7 : Nat) = 13 ∨ (7 : Nat) = 19) ∧
    (0 : ℚ) < (⟨3, 300, 300, [], []⟩ : GridManager).canvasWidth ∧
    (0 : ℚ) < (⟨3, 300, 300, [], []⟩ : GridManager).canvasHeight ∧
    (setGridSize 7 ⟨3, 300, 300, [], []⟩).cells.length = 7 * 7 :=
  ⟨Or.inl rfl, by decide, by decide,
    (C6_setGridSize_tiles 7 ⟨3, 300, 300, [], []⟩ (Or.inl rfl) (by decide) (by decide)).1⟩


theorem rawBoxNum?_eq_none_of_hasNaN (b : RawBBox) (h : b.hasNaN) :
    rawBoxNum? b = none := by
  obtain ⟨x, y, w, hgt⟩ := b
  rcases h with h | h | h | h <;> simp_all [rawBoxNum?]

theorem mapRawDetections_ok (ds : List RawDetection) (g : GridManager)
    (h : ∀ d ∈ ds, d.bbox ≠ none) :
    ∃ g', mapRawDetections ds g = Except.ok g' := by
  induction ds generalizing g with
  | nil => exact ⟨g, rfl⟩
  | cons d ds ih =>
    rcases hb : d.bbox with - | b
    · exact absurd hb (h d (List.mem_cons_self d ds))
    · obtain ⟨g', hg'⟩ :=
        ih (mapDetectionToGridJ d.score b g) fun d' hd' => h d' (List.mem_cons_of_mem d hd')
      refine ⟨g', ?_⟩
      show (match d.bbox with
        | none => Except.error g
        | some b' => mapRawDetections ds (mapDetectionToGridJ d.score b' g)) = Except.ok g'
      rw [hb]
      exact hg'

/-- C8: the claim is wrong for a *missing* box.  With a missing-box
detection first in the list, the mapping loop throws and aborts: the
well-formed detection after it is never mapped (cell `(0,0)` stays at
confidence `0` in the error state), whereas the same well-formed
detection alone drives cell `(0,0)` to confidence `9/40`. -/
theorem C8_missing_box_counterexample :
    updateDetectionsJ [demoMissingBoxDet, demoRawDet] demoGridActive =
      Except.error { demoGridActive with cells := demoGridActive.cells.map resetCell } ∧
    (({ demoGridActive with cells := demoGridActive.cells.map resetCell } :
        GridManager).cells.get? 0).map Cell.confidence = some 0 ∧
    ((updateDetectionsJ [demoRawDet] demoGridActive).toOption.map
        fun g' => (g'.cells.get? 0).map Cell.confidence) = some (some (9/40)) ∧
    (9/40 : ℚ) ≠ 0 := by
  refine ⟨rfl, ?_, ?_, by norm_num⟩
  · norm_num [demoGridActive, demoGrid0, createGrid, calculateCellPositions,
      activateCell, modifyIdx, resetCell, List.range_succ]
  · have h := demo_affected
    norm_num [demoGridActive, demoGrid0, demoRawDet, updateDetectionsJ, mapRawDetections,
      mapDetectionToGridJ, rawBoxNum?, mapDetectionToGrid, h, Except.toOption,
      createGrid, calculateCellPositions, activateCell, modifyIdx, resetCell,
      applyDetectionToCell, calculateIntersection, List.range_succ]

/-- C8 (amended): a `NaN`-box detection is skipped for that detection
only — it maps onto no cells and the rest of the list is still processed
(when every box is present the whole loop completes without aborting) —
but a detection whose box is missing entirely throws in the destructuring
and aborts the remaining mapping of that frame. -/
theorem C8_malformed_detections (g g2 : GridManager) (ds : List RawDetection)
    (s : ℚ) (b : RawBBox) (tl : List RawDetection)
    (hall : ∀ d ∈ ds, d.bbox ≠ none) (hnan : b.hasNaN) :
    (∃ g', updateDetectionsJ ds g = Except.ok g') ∧
    mapDetectionToGridJ s b g2 = g2 ∧
    mapRawDetections (⟨s, some b⟩ :: tl) g2 = mapRawDetections tl g2 ∧
    mapRawDetections (⟨s, none⟩ :: tl) g2 = Except.error g2 := by
  have hskip : mapDetectionToGridJ s b g2 = g2 := by
    unfold mapDetectionToGridJ
    rw [rawBoxNum?_eq_none_of_hasNaN b hnan]
  refine ⟨?_, hskip, ?_, rfl⟩
  · exact mapRawDetections_ok ds _ hall
  · show mapRawDetections tl (mapDetectionToGridJ s b g2) = mapRawDetections tl g2
    rw [hskip]

/-- Witness for `C8_malformed_detections` on concrete inputs. -/
theorem C8_malformed_detections_witness :
    (∀ d ∈ [demoRawDet], d.bbox ≠ none) ∧
    (RawBBox.hasNaN ⟨JVal.nan, JVal.num 0, JVal.num 1, JVal.num 1⟩) ∧
    ((∃ g', updateDetectionsJ [demoRawDet] demoGrid0 = Except.ok g') ∧
      mapDetectionToGridJ (9/10) ⟨JVal.nan, JVal.num 0, JVal.num 1, JVal.num 1⟩ demoGrid0 =
        demoGrid0 ∧
      mapRawDetections [⟨9/10, some ⟨JVal.nan, JVal.num 0, JVal.num 1, JVal.num 1⟩⟩]
          demoGrid0 = mapRawDetections [] demoGrid0 ∧
      mapRawDetections [(⟨9/10, none⟩ : RawDetection)] demoGrid0 =
        Except.error demoGrid0) :=
  ⟨by decide, Or.inl rfl,
    C8_malformed_detections demoGrid0 demoGrid0 [demoRawDet] (9/10)
      ⟨JVal.nan, JVal.num 0, JVal.num 1, JVal.num 1⟩ [] (by decide) (Or.inl rfl)⟩


theorem nmsKept_eq (thr : ℚ) (ds : List Detection) (j : Nat) :
    nmsKept thr ds j = true ↔
      ∀ i, i < j → nmsKept thr ds i = true →
        ¬(calculateIoU (ds.getD i default).bbox (ds.getD j default).bbox > thr) := by
  rw [nmsKept]
  rw [List.all_eq_true]
  constructor
  · intro h i hij hkept hiou
    have hmem : i ∈ List.range j := List.mem_range.mpr hij
    have hx := h ⟨i, hmem⟩ (List.mem_attach _ _)
    rw [hkept] at hx
    simp only [Bool.true_and, Bool.not_eq_true', decide_eq_false_iff_not] at hx
    exact hx hiou
  · intro h p hp
    obtain ⟨i, hi⟩ := p
    have hij := List.mem_range.mp hi
    by_cases hk : nmsKept thr ds i = true
    · rw [hk]
      simp only [Bool.true_and, Bool.not_eq_true', decide_eq_false_iff_not]
      exact h i hij hk
    · have hk' : nmsKept thr ds i = false := Bool.eq_false_iff.mpr hk
      rw [hk']
      rfl

theorem nmsInner_mem (thr : ℚ) (get : Nat → Detection) (i : Nat) (L : List Nat)
    (sup : List Nat) (j : Nat) :
    (j ∈ L.foldl
        (fun sup j =>
          if j ∈ sup then sup
          else if calculateIoU (get i).bbox (get j).bbox > thr then sup ++ [j]
          else sup)
        sup) ↔
      j ∈ sup ∨ (j ∈ L ∧ calculateIoU (get i).bbox (get j).bbox > thr) := by
  induction L generalizing sup with
  | nil => simp
  | cons j0 L ih =>
    rw [List.foldl_cons]
    by_cases h0 : j0 ∈ sup
    · rw [if_pos h0, ih]
      constructor
      · rintro (h | h)
        · exact Or.inl h
        · exact Or.inr ⟨List.mem_cons_of_mem _ h.1, h.2⟩
      · rintro (h | ⟨hm, hi⟩)
        · exact Or.inl h
        · rcases List.mem_cons.mp hm with rfl | hm'
          · exact Or.inl h0
          · exact Or.inr ⟨hm', hi⟩
    · rw [if_neg h0]
      by_cases hiou0 : calculateIoU (get i).bbox (get j0).bbox > thr
      · rw [if_pos hiou0, ih]
        constructor
        · rintro (h | h)
          · rcases List.mem_append.mp h with h | h
            · exact Or.inl h
            · have hj : j = j0 := List.mem_singleton.mp h
              subst hj
              exact Or.inr ⟨List.mem_cons_self _ _, hiou0⟩
          · exact Or.inr ⟨List.mem_cons_of_mem _ h.1, h.2⟩
        · rintro (h | ⟨hm, hi⟩)
          · exact Or.inl (List.mem_append.mpr (Or.inl h))
          · rcases List.mem_cons.mp hm with rfl | hm'
            · exact Or.inl (List.mem_append.mpr (Or.inr (List.mem_singleton.mpr rfl)))
            · exact Or.inr ⟨hm', hi⟩
      · rw [if_neg hiou0, ih]
        constructor
        · rintro (h | h)
          · exact Or.inl h
          · exact Or.inr ⟨List.mem_cons_of_mem _ h.1, h.2⟩
        · rintro (h | ⟨hm, hi⟩)
          · exact Or.inl h
          · rcases List.mem_cons.mp hm with rfl | hm'
            · exact absurd hi hiou0
            · exact Or.inr ⟨hm', hi⟩


theorem applyNMS_eq_fold (thr : ℚ) (ds : List Detection) :
    applyNMS thr ds =
      if ds.length = 0 then []
      else ((List.range ds.length).foldl (nmsOuterStep thr ds) ([], [])).1 := rfl

theorem nmsOuter_invariant (thr : ℚ) (ds : List Detection) :
    ∀ k, k ≤ ds.length →
      ((List.range k).foldl (nmsOuterStep thr ds) ([], [])).1 =
        ((List.range k).filter fun j => nmsKept thr ds j).map (fun j => ds.getD j default) ∧
      ∀ j, (j ∈ ((List.range k).foldl (nmsOuterStep thr ds) ([], [])).2 ↔
        ∃ i, i < k ∧ nmsKept thr ds i = true ∧ i < j ∧ j < ds.length ∧
          calculateIoU (ds.getD i default).bbox (ds.getD j default).bbox > thr) := by
  intro k
  induction k with
  | zero =>
    intro _
    constructor
    · rfl
    · intro j
      constructor
      · intro h; cases h
      · rintro ⟨i, hi, -⟩; omega
  | succ k ih =>
    intro hk1
    have hkn : k < ds.length := hk1
    obtain ⟨ih1, ih2⟩ := ih (Nat.le_of_lt hkn)
    rw [List.range_succ, List.foldl_append, List.foldl_cons, List.foldl_nil]
    by_cases hks : k ∈ ((List.range k).foldl (nmsOuterStep thr ds) ([], [])).2
    · have hstep : nmsOuterStep thr ds
          ((List.range k).foldl (nmsOuterStep thr ds) ([], [])) k =
          (List.range k).foldl (nmsOuterStep thr ds) ([], []) := by
        rw [nmsOuterStep, if_pos hks]
      rw [hstep]
      have hnot : nmsKept thr ds k = false := by
        obtain ⟨i, hik, hkepti, hikk, -, hiou⟩ := (ih2 k).mp hks
        apply Bool.eq_false_iff.mpr
        intro hktrue
        exact (nmsKept_eq thr ds k).mp hktrue i hik hkepti hiou
      constructor
      · rw [List.filter_append, List.map_append, ih1]
        simp [hnot]
      · intro j
        rw [ih2 j]
        constructor
        · rintro ⟨i, hik, hkepti, hij, hjn, hiou⟩
          exact ⟨i, Nat.lt_succ_of_lt hik, hkepti, hij, hjn, hiou⟩
        · rintro ⟨i, hik1, hkepti, hij, hjn, hiou⟩
          rcases Nat.lt_or_ge i k with hik | hik
          · exact ⟨i, hik, hkepti, hij, hjn, hiou⟩
          · have hieq : i = k := by omega
            subst hieq
            rw [hkepti] at hnot
            cases hnot
    · have hkk : nmsKept thr ds k = true := by
        rw [nmsKept_eq]
        intro i hik hkepti hiou
        exact hks ((ih2 k).mpr ⟨i, hik, hkepti, hik, hkn, hiou⟩)
      have hstep : nmsOuterStep thr ds
          ((List.range k).foldl (nmsOuterStep thr ds) ([], [])) k =
          ((((List.range k).foldl (nmsOuterStep thr ds) ([], [])).1 ++ [ds.getD k default]),
            (List.range' (k + 1) (ds.length - (k + 1))).foldl
              (fun sup j =>
                if j ∈ sup then sup
                else if calculateIoU (ds.getD k default).bbox (ds.getD j default).bbox > thr
                  then sup ++ [j]
                else sup)
              ((List.range k).foldl (nmsOuterStep thr ds) ([], [])).2) := by
        rw [nmsOuterStep, if_neg hks]
      rw [hstep]
      constructor
      · show _ ++ _ = _
        rw [List.filter_append, List.map_append, ih1]
        simp [hkk]
      · intro j
        show j ∈ List.foldl _ _ _ ↔ _
        rw [nmsInner_mem thr (fun i => ds.getD i default) k _ _ j]
        constructor
        · rintro (h | ⟨hjr, hiou⟩)
          · obtain ⟨i, hik, hkepti, hij, hjn, hiou⟩ := (ih2 j).mp h
            exact ⟨i, Nat.lt_succ_of_lt hik, hkepti, hij, hjn, hiou⟩
          · rw [List.mem_range'_1] at hjr
            have hj2 : j < ds.length := by omega
            exact ⟨k, Nat.lt_succ_self k, hkk, by omega, hj2, hiou⟩
        · rintro ⟨i, hik1, hkepti, hij, hjn, hiou⟩
          rcases Nat.lt_or_ge i k with hik | hik
          · exact Or.inl ((ih2 j).mpr ⟨i, hik, hkepti, hij, hjn, hiou⟩)
          · have hieq : i = k := by omega
            subst hieq
            refine Or.inr ⟨?_, hiou⟩
            rw [List.mem_range'_1]
            omega


/-- C2 (amended): `applyNMS` keeps exactly the detections with no
*strictly* greater-than-threshold IoU against an earlier kept detection
(`nmsKept`), in list order; in particular, for a two-element
(score-descending) list the lower-scored detection is suppressed iff its
IoU with the first strictly exceeds the threshold — at IoU exactly equal
to the threshold both survive. -/
theorem C2_nms_suppression (thr : ℚ) (ds : List Detection) :
    applyNMS thr ds =
      ((List.range ds.length).filter fun j => nmsKept thr ds j).map
        (fun j => ds.getD j default) ∧
    (∀ j, nmsKept thr ds j = true ↔
      ∀ i, i < j → nmsKept thr ds i = true →
        calculateIoU (ds.getD i default).bbox (ds.getD j default).bbox ≤ thr) ∧
    (∀ a b : Detection, applyNMS thr [a, b] =
      if calculateIoU a.bbox b.bbox > thr then [a] else [a, b]) := by
  refine ⟨?_, ?_, ?_⟩
  · by_cases hz : ds.length = 0
    · rw [applyNMS_eq_fold, if_pos hz, hz]
      rfl
    · rw [applyNMS_eq_fold, if_neg hz]
      exact (nmsOuter_invariant thr ds ds.length (le_refl _)).1
  · intro j
    rw [nmsKept_eq]
    constructor
    · intro h i hij hk
      exact not_lt.mp (h i hij hk)
    · intro h i hij hk
      exact not_lt.mpr (h i hij hk)
  · intro a b
    by_cases h : calculateIoU a.bbox b.bbox > thr
    · rw [if_pos h]
      simp only [applyNMS, List.length_cons, List.length_nil]
      norm_num [List.range_succ, List.range', h, List.getD]
    · rw [if_neg h]
      simp only [applyNMS, List.length_cons, List.length_nil]
      norm_num [List.range_succ, List.range', h, List.getD]

end YoloGrid
